import Mathlib

/-!
Verification of src/simulation.py (pandapower-heig-ui): a shallow embedding of
the network loader, the profile loader, the profile binder and the simulation
runner, together with proofs of the specification's testable properties.

Times of day are represented as natural numbers of microseconds since
midnight (Python datetime.time has microsecond resolution); spreadsheet
numbers are represented as rationals; missing values (NaN / None) as
Option.none.
-/

namespace PPUI

/-! ## Profile binder: data model -/

/-- One row of the equipment table net[equipment]: the stable integer index,
the display name, and the profile_mapping field (-1 means unassigned). -/
structure Equip where
  idx : ℤ
  name : String
  profile_mapping : ℤ
deriving DecidableEq, Repr

/-- A profile table (a pandas DataFrame): a time-of-day index in microseconds,
columns labeled by integer profile identifiers, and one row of values per
timestamp. -/
structure PTable where
  index : List ℕ
  cols : List ℤ
  rows : List (List ℚ)
deriving DecidableEq, Repr

/-- The series profile[k]: in each row, the value at the position of column
k (0 for an absent column; callers only use present columns). -/
def PTable.col (p : PTable) (k : ℤ) : List ℚ :=
  p.rows.map (fun r => r.getD (p.cols.indexOf k) 0)

/-- One ConstControl registration row of net.controller, with the fields
passed at creation (lines 206-208). The data source keeps the mapped table as
an association from the equipment index to its bound series. -/
structure Controller where
  element : String
  element_index : List ℤ
  varName : String
  data_source : List (ℤ × List ℚ)
  profile_name : List ℤ
deriving DecidableEq, Repr

/-- Log messages emitted by the module, kept structurally. -/
inductive LogEntry where
  /-- log.error("Simulation Profiles have not the same timestamps") -/
  | timestampsError : LogEntry
  /-- log.warning("... equipments have no ... profiles"), carrying the display
  names of the unmapped equipment and the variable name. -/
  | unmappedWarning (names : List String) (varName : String) : LogEntry
  /-- log.error from run_time_simulation's persistence block, carrying the
  enclosing function name and the target file path. -/
  | persistError (funcName : String) (filePath : String) : LogEntry
deriving DecidableEq, Repr

/-- The pandapower network object: the per-class equipment tables, the
controller registration list, and the dynamically attached time_index entry
(absent until the first profile is bound). -/
structure Net where
  tables : List (String × List Equip)
  controller : List Controller
  time_index : Option (List ℕ)
deriving DecidableEq, Repr

/-- The table net[equipment] (empty when the class is absent). -/
def Net.equips (net : Net) (equipment : String) : List Equip :=
  (net.tables.lookup equipment).getD []

/-- Insertion into a sorted list, ascending. -/
def insertSorted [LinearOrder α] (x : α) : List α → List α
  | [] => [x]
  | y :: ys => if x ≤ y then x :: y :: ys else y :: insertSorted x ys

/-- Insertion sort, ascending. -/
def sortAsc [LinearOrder α] : List α → List α
  | [] => []
  | x :: xs => insertSorted x (sortAsc xs)

/-- Lines 181-184: net[equipment].reset_index().groupby("profile_mapping")
["index"].apply(list).to_dict(). The keys are the distinct profile_mapping
values in ascending order (pandas groupby sorts its keys); each key maps to
the equipment indices carrying it, in row order. -/
def profileMappingDict (eqs : List Equip) : List (ℤ × List ℤ) :=
  (sortAsc (eqs.map (·.profile_mapping)).dedup).map
    (fun k => (k, (eqs.filter (fun e => decide (e.profile_mapping = k))).map (·.idx)))

/-- Lines 194-197: when the mapping is non-empty, mapped_profile receives, for
every mapping key that is among the profile's columns, one column per mapped
equipment index, each equal to the profile's column for that key. -/
def mappedProfileOf (pm : List (ℤ × List ℤ)) (p : PTable) : List (ℤ × List ℚ) :=
  pm.foldl
    (fun acc kl =>
      if kl.1 ∈ p.cols then acc ++ kl.2.map (fun e => (e, p.col kl.1)) else acc) []

/-- Line 199: profile[net[equipment].index.intersection(profile.columns)],
the fallback used when the mapping dictionary is empty. -/
def fallbackProfileOf (eqs : List Equip) (p : PTable) : List (ℤ × List ℚ) :=
  ((eqs.map (·.idx)).filter (fun i => decide (i ∈ p.cols))).map (fun i => (i, p.col i))

/-- The mapped table built for one profile: lines 193-199. -/
def mappedOf (eqs : List Equip) (pm : List (ℤ × List ℤ)) (p : PTable) : List (ℤ × List ℚ) :=
  if pm = [] then fallbackProfileOf eqs p else mappedProfileOf pm p

/-- Line 200: net[equipment].index.difference(mapped_profile.columns); a pandas
Index.difference is deduplicated and sorted ascending. -/
def unmappedOf (eqs : List Equip) (mappedCols : List ℤ) : List ℤ :=
  sortAsc (((eqs.map (·.idx)).filter (fun i => decide (i ∉ mappedCols))).dedup)

/-- Line 202: net[equipment].loc[i, "name"], the display name at index i. -/
def equipName (eqs : List Equip) (i : ℤ) : String :=
  ((eqs.find? (fun e => decide (e.idx = i))).map (·.name)).getD ""

/-- The warning of lines 201-203 for one (variable, profile) pair: one entry
naming the unmapped equipment, emitted only when some equipment is unmapped. -/
def varWarnLogs (eqs : List Equip) (pm : List (ℤ × List ℤ)) (varName : String)
    (p : PTable) : List LogEntry :=
  let unmapped := unmappedOf eqs ((mappedOf eqs pm p).map Prod.fst)
  if unmapped = [] then []
  else [.unmappedWarning (unmapped.map (equipName eqs)) varName]

/-- The ConstControl registration created for one (variable, profile) pair
(lines 206-208): element_index and profile_name are the mapped table's columns
and the data source is the mapped table itself (reindexed positionally). -/
def ctrlOf (equipment : String) (eqs : List Equip) (pm : List (ℤ × List ℤ))
    (varName : String) (p : PTable) : Controller :=
  let mapped := mappedOf eqs pm p
  { element := equipment, element_index := mapped.map Prod.fst, varName := varName,
    data_source := mapped, profile_name := mapped.map Prod.fst }

/-- Running state of the loop of apply_power_profile: the network's time
index and controller table being mutated in place, the log messages emitted so
far, and the uncaught pandas exception if one was raised (it aborts the
remaining iterations, leaving the state as mutated so far). -/
structure BindState where
  timeIndex : Option (List ℕ)
  ctrls : List Controller
  logs : List LogEntry
  exn : Option String
deriving DecidableEq, Repr

/-- One iteration of the for variable, profile loop (lines 185-208). A None
profile is skipped. The first bound profile establishes net["time_index"];
afterwards the comparison net["time_index"] == pd.DataFrame(profile.index,...)
raises when the two frames have different lengths (pandas refuses to compare
differently-labeled DataFrames) and merely logs an error when the lengths agree
but the labels differ. -/
def applyVar (equipment : String) (eqs : List Equip) (pm : List (ℤ × List ℤ))
    (st : BindState) (vp : String × Option PTable) : BindState :=
  if st.exn.isSome then st else
  match vp.2 with
  | none => st
  | some p =>
    match st.timeIndex with
    | none =>
      { timeIndex := some p.index,
        ctrls := st.ctrls ++ [ctrlOf equipment eqs pm vp.1 p],
        logs := st.logs ++ varWarnLogs eqs pm vp.1 p,
        exn := none }
    | some t =>
      if t.length ≠ p.index.length then
        { st with exn := some "Can only compare identically-labeled DataFrame objects" }
      else
        { timeIndex := some t,
          ctrls := st.ctrls ++ [ctrlOf equipment eqs pm vp.1 p],
          logs := st.logs ++ (if t ≠ p.index then [.timestampsError] else [])
            ++ varWarnLogs eqs pm vp.1 p,
          exn := none }

/-- apply_power_profile(net, equipment, power_profiles) (lines 156-208), with
power_profiles as an ordered association list (a Python dict preserves
insertion order). Returns the mutated network, the log messages emitted, and
the uncaught exception if one was raised part-way. -/
def apply_power_profile (net : Net) (equipment : String)
    (power_profiles : List (String × Option PTable)) :
    Net × List LogEntry × Option String :=
  let ctrls0 := if net.controller = [] then net.controller
    else net.controller.filter (fun c => decide (c.element ≠ equipment))
  let eqs := net.equips equipment
  let pm := profileMappingDict eqs
  let st := power_profiles.foldl (applyVar equipment eqs pm)
    { timeIndex := net.time_index, ctrls := ctrls0, logs := [], exn := none }
  ({ net with controller := st.ctrls, time_index := st.timeIndex }, st.logs, st.exn)

/-! ## Profile binder: companions describing one completed loop run -/

/-- Whether the loop of apply_power_profile runs to completion from a given
established time index: every bound profile must have as many time labels as
the index established at the moment it is examined (otherwise the DataFrame
comparison raises). -/
def bindCompat : Option (List ℕ) → List (String × Option PTable) → Bool
  | _, [] => true
  | none, vp :: rest =>
    match vp.2 with
    | none => bindCompat none rest
    | some p => bindCompat (some p.index) rest
  | some t, vp :: rest =>
    match vp.2 with
    | none => bindCompat (some t) rest
    | some p => decide (t.length = p.index.length) && bindCompat (some t) rest

/-- The network's time index after the loop: the first bound profile
establishes it; an established index never changes. -/
def tiAfter : Option (List ℕ) → List (String × Option PTable) → Option (List ℕ)
  | ti, [] => ti
  | none, vp :: rest =>
    match vp.2 with
    | none => tiAfter none rest
    | some p => tiAfter (some p.index) rest
  | some t, _ :: rest => tiAfter (some t) rest

/-- The controller registrations appended by one call, one per non-None
profile, in dictionary order. -/
def newCtrlsOf (equipment : String) (eqs : List Equip) (pm : List (ℤ × List ℤ))
    (pps : List (String × Option PTable)) : List Controller :=
  pps.filterMap (fun vp => vp.2.map (fun p => ctrlOf equipment eqs pm vp.1 p))

/-- The log messages emitted by one completed call. -/
def newLogsOf (eqs : List Equip) (pm : List (ℤ × List ℤ)) :
    Option (List ℕ) → List (String × Option PTable) → List LogEntry
  | _, [] => []
  | none, vp :: rest =>
    match vp.2 with
    | none => newLogsOf eqs pm none rest
    | some p => varWarnLogs eqs pm vp.1 p ++ newLogsOf eqs pm (some p.index) rest
  | some t, vp :: rest =>
    match vp.2 with
    | none => newLogsOf eqs pm (some t) rest
    | some p => (if t ≠ p.index then [LogEntry.timestampsError] else [])
        ++ varWarnLogs eqs pm vp.1 p ++ newLogsOf eqs pm (some t) rest

/-- Concrete one-load network used by witnesses. -/
def exNet : Net :=
  { tables := [("load", [⟨0, "L0", 1⟩])], controller := [], time_index := none }

/-- Concrete one-column profile table used by witnesses. -/
def exProfile : PTable := { index := [0], cols := [1], rows := [[3]] }

/-- The controller that binding exProfile to exNet's load class creates. -/
def exCtrl : Controller :=
  { element := "load", element_index := [0], varName := "p_mw",
    data_source := [(0, [3])], profile_name := [0] }

/-- Concrete two-load network (load 0 unassigned, load 1 mapped to profile 7). -/
def exNet3 : Net :=
  { tables := [("load", [⟨0, "L0", -1⟩, ⟨1, "L1", 7⟩])], controller := [],
    time_index := none }

/-- Concrete profile table whose only column is profile identifier 7. -/
def exProfile3 : PTable := { index := [0], cols := [7], rows := [[2]] }

/-- Concrete two-step profile table (a second time label one hour in). -/
def exProfile2 : PTable := { index := [0, 3600000000], cols := [1], rows := [[3], [4]] }

/-- Concrete network whose time index is already established at two steps. -/
def exNetT : Net :=
  { tables := [("load", [⟨0, "L0", 1⟩])], controller := [],
    time_index := some [0, 1800000000] }

/-- Concrete two-step profile table with the same length as exNetT's index but
different labels. -/
def exProfileT : PTable :=
  { index := [0, 3600000000], cols := [1], rows := [[3], [4]] }

/-! ## Network loader: data model -/

/-- A spreadsheet cell value: Python ints, floats (as rationals), strings,
booleans, and the parsed coordinate lists of the geodata class. -/
inductive Value where
  | int : ℤ → Value
  | num : ℚ → Value
  | str : String → Value
  | bool : Bool → Value
  | coords : List (List ℚ) → Value
deriving DecidableEq, Repr

/-- A cell; a missing value (NaN / None) is Option.none. -/
abbrev Cell := Option Value

/-- One sheet as read into a DataFrame: its column names and rows of cells. -/
structure Sheet where
  cols : List String
  rows : List (List Cell)
deriving DecidableEq, Repr

/-- The cell of row i, column position j. -/
def Sheet.cell (s : Sheet) (i j : ℕ) : Cell := (s.rows.getD i []).getD j none

/-- Lines 37-44: the columns to fill with defaults where None is found. -/
def default_values : List (String × Value) := [
  ("in_service", .bool true), ("g_us_per_km", .num 0), ("g0_us_per_km", .num 0),
  ("r0_ohm_per_km", .num 0), ("x0_ohm_per_km", .num 0), ("c0_nf_per_km", .num 0),
  ("parallel", .int 1), ("df", .num 1), ("p_mw", .num 0), ("q_mvar", .num 0),
  ("const_z_percent", .num 0), ("const_i_percent", .num 0), ("scaling", .num 1),
  ("vk0_percent", .num 0), ("vkr0_percent", .num 0), ("mag0_percent", .num 0),
  ("mag0_rx", .num 0), ("si0_hv_partial", .num 0), ("shift_degree", .num 0),
  ("tap_step_percent", .num 1), ("tap_phase_shifter", .bool false),
  ("tap_step_degree", .num 0), ("vm_pu", .num 1), ("va_degree", .num 0),
  ("slack_weight", .num 1), ("tap_pos", .int 0), ("tap_neutral", .int 0),
  ("tap_min", .int 0), ("tap_max", .int 1), ("profile_mapping", .int (-1)),
  ("current_source", .bool true)]

/-- Lines 46-47: the columns converted to 64-bit integers. -/
def int_column : List String := ["bus", "parallel", "from_bus", "to_bus", "element",
  "hv_bus", "lv_bus", "tap_pos", "tap_neutral", "tap_min", "tap_max", "profile_mapping"]

/-- Line 48: the columns converted to booleans. -/
def bool_column : List String := ["current_source", "in_service"]

instance {α β : Type*} [DecidableEq α] [DecidableEq β] : DecidableEq (Except α β) :=
  fun a b =>
    match a, b with
    | .ok x, .ok y =>
      if h : x = y then .isTrue (by rw [h])
      else .isFalse (by intro hh; injection hh; exact h (by assumption))
    | .error x, .error y =>
      if h : x = y then .isTrue (by rw [h])
      else .isFalse (by intro hh; injection hh; exact h (by assumption))
    | .ok _, .error _ => .isFalse (by intro hh; cases hh)
    | .error _, .ok _ => .isFalse (by intro hh; cases hh)

/-- Effectful map over a list, stopping at the first error. -/
def mapME {α β : Type} (f : α → Except String β) : List α → Except String (List β)
  | [] => .ok []
  | a :: as =>
    match f a with
    | .error e => .error e
    | .ok b =>
      match mapME f as with
      | .error e => .error e
      | .ok bs => .ok (b :: bs)

/-- Line 54: .drop(columns="idx"), removing the helper column. -/
def dropIdxColumn (s : Sheet) : Sheet :=
  { cols := s.cols.filter (fun c => decide (c ≠ "idx")),
    rows := s.rows.map (fun r =>
      ((s.cols.zip r).filter (fun cr => decide (cr.1 ≠ "idx"))).map Prod.snd) }

/-- Line 54: .dropna(how="all"), removing rows with no non-missing cell. -/
def dropAllNaRows (s : Sheet) : Sheet :=
  { s with rows := s.rows.filter (fun r => r.any (fun c => c.isSome)) }

/-- Lines 57, 60, 62: fillna(value=d) — a missing cell in a column having an
entry in d receives that entry. -/
def fillnaSheet (d : List (String × Value)) (s : Sheet) : Sheet :=
  { s with rows := s.rows.map (fun r =>
      (s.cols.zip r).map (fun cr =>
        match cr.2 with
        | some v => some v
        | none => d.lookup cr.1)) }

/-- Decimal literal parsing, as Python float() handles the pieces of a coords
string: optional sign, digits, optional fractional digits, surrounding
whitespace stripped (the template's coordinates use no exponent forms). -/
def parseFloatQ (s : String) : Option ℚ :=
  let t := s.trim
  let neg := t.startsWith "-"
  let u := if neg then t.drop 1 else t
  let sgn : ℚ := if neg then -1 else 1
  match u.splitOn "." with
  | [a] => (a.toNat?).map (fun n => sgn * (n : ℚ))
  | [a, b] =>
    match a.toNat?, b.toNat? with
    | some n, some fr => some (sgn * ((n : ℚ) + (fr : ℚ) / ((10 : ℚ) ^ b.length)))
    | _, _ => none
  | _ => none

/-- Lines 65-67: x.replace("[[", "").replace("]]", "").split("], ["), each
piece split on "," and parsed as floats. -/
def parseCoords (s : String) : Option (List (List ℚ)) :=
  (((s.replace "[[" "").replace "]]" "").splitOn "], [").mapM
    (fun part => (part.splitOn ",").mapM parseFloatQ)

/-- For line_geodata only: the "coords" column is rebuilt from its string
form; a missing or non-string cell, or an unparseable number, fails the load
(the Python lambda raises). -/
def parseCoordsSheet (s : Sheet) : Except String Sheet :=
  match mapME (fun r =>
      mapME (fun cr =>
        if cr.1 = "coords" then
          match cr.2 with
          | some (Value.str t) =>
            match parseCoords t with
            | some cs => Except.ok (some (Value.coords cs))
            | none => Except.error "malformed coords string"
          | _ => Except.error "coords cell is not a string"
        else Except.ok cr.2) (s.cols.zip r)) s.rows with
  | .error e => .error e
  | .ok rows => .ok { s with rows := rows }

/-- Truncation toward zero, as numpy converts floats to int64. -/
def truncQ (q : ℚ) : ℤ := q.num.tdiv q.den

/-- Integer literal parsing for object columns: optional sign and digits. -/
def parseIntString (s : String) : Option ℤ :=
  let t := s.trim
  if t.startsWith "-" then ((t.drop 1).toNat?).map (fun n => -(n : ℤ))
  else (t.toNat?).map (fun n => (n : ℤ))

/-- astype('int64') on one cell: ints stay, floats truncate, booleans map to
0/1, integer strings convert, anything else — including a missing value —
raises. -/
def castIntCell : Cell → Except String Cell
  | some (Value.int n) => .ok (some (.int n))
  | some (Value.num q) => .ok (some (.int (truncQ q)))
  | some (Value.bool b) => .ok (some (.int (if b then 1 else 0)))
  | some (Value.str t) =>
    match parseIntString t with
    | some n => .ok (some (.int n))
    | none => .error "invalid literal for int"
  | some (Value.coords _) => .error "cannot convert coords to int"
  | none => .error "cannot convert missing value to int"

/-- astype(bool) on one cell: never fails; zero-like values give false, and a
missing value (NaN) gives true. -/
def castBoolCell : Cell → Cell
  | some (Value.int n) => some (.bool (decide (n ≠ 0)))
  | some (Value.num q) => some (.bool (decide (q ≠ 0)))
  | some (Value.bool b) => some (.bool b)
  | some (Value.str t) => some (.bool (decide (t ≠ "")))
  | some (Value.coords cs) => some (.bool (decide (cs ≠ [])))
  | none => some (.bool true)

/-- Lines 69-70: cast the columns present in int_column to int64. -/
def castIntSheet (s : Sheet) : Except String Sheet :=
  match mapME (fun r =>
      mapME (fun cr => if cr.1 ∈ int_column then castIntCell cr.2 else .ok cr.2)
        (s.cols.zip r)) s.rows with
  | .error e => .error e
  | .ok rows => .ok { s with rows := rows }

/-- Lines 72-73: cast the columns present in bool_column to bool. -/
def castBoolSheet (s : Sheet) : Sheet :=
  { s with rows := s.rows.map (fun r =>
      (s.cols.zip r).map (fun cr =>
        if cr.1 ∈ bool_column then castBoolCell cr.2 else cr.2)) }

/-- Lines 58-67: the class-specific second stage — bus and load type
defaults, geodata coordinate parsing. -/
def typedSheet (eq_name : String) (filled : Sheet) : Except String Sheet :=
  if eq_name = "bus" then .ok (fillnaSheet [("type", .str "b")] filled)
  else if eq_name = "load" then .ok (fillnaSheet [("type", .str "wye")] filled)
  else if eq_name = "line_geodata" then parseCoordsSheet filled
  else .ok filled

/-- Lines 52-77: processing of one workbook sheet; none when the sheet is
empty after cleaning (it is then skipped). The final replace(np.nan, None) is
the identity here because missing cells are already Option.none. -/
def loadSheet (eq_name : String) (raw : Sheet) : Except String (Option Sheet) :=
  let cleaned := dropAllNaRows (dropIdxColumn raw)
  if cleaned.rows = [] then .ok none
  else
    match typedSheet eq_name (fillnaSheet default_values cleaned) with
    | .error e => .error e
    | .ok typed =>
      match castIntSheet typed with
      | .error e => .error e
      | .ok casted => .ok (some (castBoolSheet casted))

/-- load_net_from_xlsx: process each sheet in workbook order; sheets empty
after cleaning are skipped, the rest are stored under their sheet name. -/
def load_net_from_xlsx (sheets : List (String × Sheet)) :
    Except String (List (String × Sheet)) :=
  match mapME (fun ns =>
      match loadSheet ns.1 ns.2 with
      | .error e => .error e
      | .ok t => .ok (ns.1, t)) sheets with
  | .error e => .error e
  | .ok tables => .ok (tables.filterMap (fun nt => nt.2.map (fun t => (nt.1, t))))

/-- Concrete raw bus sheet (a missing type, a missing in_service, a float
bus number) used by the loader witness. -/
def exRawBus : Sheet :=
  { cols := ["idx", "name", "type", "bus", "in_service"],
    rows := [[some (.num 0), some (.str "B1"), none, some (.num 1), none]] }

/-- The table the loader produces for exRawBus. -/
def exLoadedBus : Sheet :=
  { cols := ["name", "type", "bus", "in_service"],
    rows := [[some (.str "B1"), some (.str "b"), some (.int 1), some (.bool true)]] }

/-! ## Profile loader: data model -/

/-- One profile workbook sheet as read with header=[0,1] and index_col=0:
a time-of-day index in microseconds since midnight, two-level column labels
(profile identifier, quantity label), and rows of possibly-missing values. -/
structure RawProfileSheet where
  index : List ℕ
  cols : List (ℤ × String)
  rows : List (List (Option ℚ))
deriving DecidableEq, Repr

/-- One day in microseconds (the initial period bound timedelta(days=1)). -/
def microsPerDay : ℕ := 86400000000

/-- Seed of the start-time fold: time(23, 59, 59) in microseconds. -/
def startSeed : ℕ := 86399000000

/-- dropna(how="all", axis=1): drop columns with no non-missing value. -/
def dropAllNaColsP (s : RawProfileSheet) : RawProfileSheet :=
  let keep := (List.range s.cols.length).filter
    (fun j => s.rows.any (fun r => (r.getD j none).isSome))
  { index := s.index,
    cols := keep.map (fun j => s.cols.getD j (0, "")),
    rows := s.rows.map (fun r => keep.map (fun j => r.getD j none)) }

/-- dropna(how="all", axis=0): drop rows with no non-missing value, together
with their index labels. -/
def dropAllNaRowsP (s : RawProfileSheet) : RawProfileSheet :=
  let keep := (List.range s.rows.length).filter
    (fun i => (s.rows.getD i []).any (fun c => c.isSome))
  { index := keep.map (fun i => s.index.getD i 0),
    cols := s.cols,
    rows := keep.map (fun i => s.rows.getD i []) }

/-- Lines 105-107: clean columns first, then rows. -/
def cleanProfileSheet (s : RawProfileSheet) : RawProfileSheet :=
  dropAllNaRowsP (dropAllNaColsP s)

/-- The sheets the loader keeps: cleaned, and non-empty afterwards. -/
def cleanedSheets (sheets : List (String × RawProfileSheet)) :
    List (String × RawProfileSheet) :=
  (sheets.map (fun ns => (ns.1, cleanProfileSheet ns.2))).filter
    (fun ns => !(ns.2.rows.isEmpty || ns.2.cols.isEmpty))

/-- Consecutive differences of an index (pandas diff() without its leading
NaT). -/
def gapsOf (idx : List ℕ) : List ℤ :=
  (idx.zip idx.tail).map (fun ab => (ab.2 : ℤ) - (ab.1 : ℤ))

/-- date_time.diff().min() in microseconds: the minimum consecutive
difference; none (pandas NaT) for fewer than two samples. -/
def diffMin (idx : List ℕ) : Option ℤ :=
  match (idx.zip idx.tail).map (fun ab => (ab.2 : ℤ) - (ab.1 : ℤ)) with
  | [] => none
  | d :: ds => some (ds.foldl min d)

/-- Line 114 folded over the kept sheets: period = min(period, diff().min()),
seeded with one day; a NaT minimum loses the builtin min and leaves the
running period unchanged. -/
def commonPeriodOf (idxs : List (List ℕ)) : ℤ :=
  idxs.foldl (fun p idx =>
    match diffMin idx with
    | none => p
    | some d => min p d) (microsPerDay : ℤ)

/-- Line 115 folded: start_time = min(start_time, index[0]), seeded with
time(23, 59, 59). -/
def commonStartOf (firsts : List ℕ) : ℕ := firsts.foldl min startSeed

/-- Line 116 folded: end_time = max(end_time, index[-1]), seeded with
time(). -/
def commonEndOf (lasts : List ℕ) : ℕ := lasts.foldl max 0

/-- pd.date_range(start, end, freq=period) mapped back to times of day: the
arithmetic progression from start by period up to end (empty for a
non-positive frequency over an ascending range). -/
def dateRange (start endt : ℕ) (period : ℤ) : List ℕ :=
  if 0 < period ∧ start ≤ endt then
    (List.range ((endt - start) / period.toNat + 1)).map
      (fun k => start + k * period.toNat)
  else []

/-- Forward fill: a missing entry takes the last non-missing value seen. -/
def ffillAux {α : Type} (last : Option α) : List (Option α) → List (Option α)
  | [] => []
  | none :: rest => last :: ffillAux last rest
  | some v :: rest => some v :: ffillAux (some v) rest

/-- fillna(method="ffill") on one column. -/
def ffillCol {α : Type} (l : List (Option α)) : List (Option α) := ffillAux none l

/-- fillna(method="bfill") on one column. -/
def bfillCol {α : Type} (l : List (Option α)) : List (Option α) :=
  (ffillAux none l.reverse).reverse

/-- The sorted union of the reference grid times and a sheet's native times
(pd.concat(axis=1) outer join followed by sort_index). -/
def unionSorted (grid idx : List ℕ) : List ℕ := sortAsc ((grid ++ idx).dedup)

/-- The "timestamp" column of the concatenated frame: the grid position of
each union time, missing for native-only times. -/
def unionTimestampCol (grid union : List ℕ) : List (Option ℕ) :=
  union.map (fun tv => if tv ∈ grid then some (grid.indexOf tv) else none)

/-- The value rows of the concatenated frame: the sheet's row where the
union time is native, all-missing otherwise. -/
def unionValueRows (s : RawProfileSheet) (union : List ℕ) : List (List (Option ℚ)) :=
  union.map (fun tv =>
    if tv ∈ s.index then s.rows.getD (s.index.indexOf tv) []
    else List.replicate s.cols.length none)

/-- Per column, the first non-missing value of a group, in row order
(pandas groupby(...).first()). -/
def firstSomeAt (grp : List (List (Option ℚ))) (j : ℕ) : Option ℚ :=
  grp.foldl (fun acc r =>
    match acc with
    | some v => some v
    | none => r.getD j none) none

/-- groupby("timestamp").first(): group keys ascending, one output row per
key. -/
def groupFirst (keyed : List (ℕ × List (Option ℚ))) (width : ℕ) :
    List (List (Option ℚ)) :=
  (sortAsc (keyed.map Prod.fst).dedup).map (fun k =>
    (List.range width).map (fun j =>
      firstSomeAt ((keyed.filter (fun kr => decide (kr.1 = k))).map Prod.snd) j))

/-- Known (position, value) pairs of one column. -/
def knownPairs (l : List (Option ℚ)) : List (ℕ × ℚ) :=
  l.enum.filterMap (fun ia => ia.2.map (fun v => (ia.1, v)))

/-- interpolate() at one position: linear between the nearest known values
on either side, untouched otherwise. -/
def interpAt (l : List (Option ℚ)) (i : ℕ) : Option ℚ :=
  match l.getD i none with
  | some v => some v
  | none =>
    match ((knownPairs l).filter (fun kv => decide (kv.1 < i))).getLast?,
        ((knownPairs l).filter (fun kv => decide (i < kv.1))).head? with
    | some p0, some p1 =>
      some (p0.2 + (p1.2 - p0.2) * ((i : ℚ) - (p0.1 : ℚ)) / ((p1.1 : ℚ) - (p0.1 : ℚ)))
    | _, _ => none

/-- interpolate().fillna(method="bfill").fillna(method="ffill") on one
column: interior gaps linearly interpolated, then leading gaps backward
filled, then trailing gaps forward filled (trailing gaps receive the last
known value whichever stage supplies it). -/
def interpColumn (l : List (Option ℚ)) : List (Option ℚ) :=
  ffillCol (bfillCol ((List.range l.length).map (interpAt l)))

/-- Column j of a list of rows. -/
def colOf (rows : List (List (Option ℚ))) (j : ℕ) : List (Option ℚ) :=
  rows.map (fun r => r.getD j none)

/-- Columnwise interpolation of the grouped rows. -/
def interpRows (width : ℕ) (rows : List (List (Option ℚ))) :
    List (List (Option ℚ)) :=
  let cols := (List.range width).map (fun j => interpColumn (colOf rows j))
  (List.range rows.length).map (fun i => cols.map (fun c => c.getD i none))

/-- Lines 130-147 for one sheet: concatenate with the reference grid, fill
the timestamp column forward then backward, group by timestamp keeping first
values, interpolate columnwise, and rebuild a frame on the grid index
(pandas raises when the row count does not match the grid length). -/
def alignSheet (grid : List ℕ) (s : RawProfileSheet) :
    Except String (List (List (Option ℚ))) :=
  let union := unionSorted grid s.index
  let keys := bfillCol (ffillCol (unionTimestampCol grid union))
  let vals := unionValueRows s union
  let keyed := (keys.zip vals).filterMap (fun kr => kr.1.map (fun k => (k, kr.2)))
  let interped := interpRows s.cols.length (groupFirst keyed s.cols.length)
  if interped.length = grid.length then .ok interped
  else .error "Shape of passed values does not match the index"

/-- A single-quantity profile frame: the common index, profile-identifier
columns, and values. -/
structure ProfileFrame where
  index : List ℕ
  cols : List ℤ
  rows : List (List (Option ℚ))
deriving DecidableEq, Repr

/-- actual_profile.xs(label, level=1, axis=1).dropna(how="all", axis=1). -/
def xsPower (cols : List (ℤ × String)) (rows : List (List (Option ℚ)))
    (index : List ℕ) (label : String) : ProfileFrame :=
  let keep := ((List.range cols.length).filter
    (fun j => decide ((cols.getD j (0, "")).2 = label))).filter
    (fun j => rows.any (fun r => (r.getD j none).isSome))
  { index := index,
    cols := keep.map (fun j => (cols.getD j (0, "")).1),
    rows := rows.map (fun r => keep.map (fun j => r.getD j none)) }

/-- load_power_profile_form_xlsx (lines 81-153): clean each sheet and skip
the empty ones, fold the common period, start and end over the kept sheets,
build the reference grid, align every kept sheet onto it and split it by
quantity label. -/
def load_power_profile_form_xlsx (sheets : List (String × RawProfileSheet)) :
    Except String (List (String × List (String × ProfileFrame))) :=
  let kept := cleanedSheets sheets
  let grid := dateRange
    (commonStartOf (kept.map (fun ns => ns.2.index.headD 0)))
    (commonEndOf (kept.map (fun ns => ns.2.index.getLastD 0)))
    (commonPeriodOf (kept.map (fun ns => ns.2.index)))
  mapME (fun ns =>
    match alignSheet grid ns.2 with
    | .error e => .error e
    | .ok rows =>
      .ok (ns.1,
        (if "P [MW]" ∈ ns.2.cols.map Prod.snd
         then [("p_mw", xsPower ns.2.cols rows grid "P [MW]")] else [])
        ++ (if "Q [MVAR]" ∈ ns.2.cols.map Prod.snd
         then [("q_mvar", xsPower ns.2.cols rows grid "Q [MVAR]")] else []))) kept

/-- Modelled from the spec wording (for comparison with the code): the
minimum inter-sample gap observed across all sheets. -/
def specMinGap (idxs : List (List ℕ)) : Option ℤ :=
  match (idxs.map (fun idx => (idx.zip idx.tail).map
      (fun ab => (ab.2 : ℤ) - (ab.1 : ℤ)))).flatten with
  | [] => none
  | d :: ds => some (ds.foldl min d)

/-- Modelled from the spec wording: the earliest first-sample time across
all sheets. -/
def specStart (firsts : List ℕ) : Option ℕ :=
  match firsts with
  | [] => none
  | f :: fs => some (fs.foldl min f)

/-- Modelled from the spec wording: the latest last-sample time across all
sheets. -/
def specEnd (lasts : List ℕ) : Option ℕ :=
  match lasts with
  | [] => none
  | l :: ls => some (ls.foldl max l)

/-- Concrete profile sheet whose first sample lies half a second past the
23:59:59 seed. -/
def exSheet5 : RawProfileSheet :=
  { index := [86399500000, 86399600000], cols := [(1, "P [MW]")],
    rows := [[some 1], [some 2]] }

/-- The loader's output for exSheet5 (grid of 7 points at the observed
100 ms period, starting at the 23:59:59 seed; leading values backfilled). -/
def exRes5 : List (String × List (String × ProfileFrame)) :=
  [("load", [("p_mw",
    { index := [86399000000, 86399100000, 86399200000, 86399300000, 86399400000,
        86399500000, 86399600000],
      cols := [1],
      rows := [[some 1], [some 1], [some 1], [some 1], [some 1], [some 1],
        [some 2]] })])]

/-! ## Output writer: create_output_writer (lines 211-234) -/

/-- The add_results argument of create_output_writer (line 211): a list of
selector strings, a single selector string, or None. -/
inductive AddResults where
  | nothing : AddResults
  | single (s : String) : AddResults
  | multiple (l : List String) : AddResults
deriving DecidableEq, Repr

/-- Lines 224-229: the explicit results list handed to log_variable, always
ending with the mandatory "res_trafo.loading_percent" selector. -/
def resultsOf : AddResults → List String
  | AddResults.multiple l => l ++ ["res_trafo.loading_percent"]
  | AddResults.single s => [s, "res_trafo.loading_percent"]
  | AddResults.nothing => ["res_trafo.loading_percent"]

/-- The caller-supplied extra selectors carried by an add_results argument. -/
def extrasOf : AddResults → List String
  | AddResults.multiple l => l
  | AddResults.single s => [s]
  | AddResults.nothing => []

/-- Modelled from the spec: timeseries.OutputWriter(net) (line 231) is
external pandapower code; a freshly constructed OutputWriter starts with the
library default log variables res_bus.vm_pu and res_line.loading_percent,
and log_variable adds further selectors to that list. -/
def outputWriterDefaults : List String :=
  ["res_bus.vm_pu", "res_line.loading_percent"]

/-- Lines 224-234: the "table.field" selectors registered on the
OutputWriter: the construction-time defaults followed by every entry of the
results list, each logged via ow.log_variable(*result.split(".")). -/
def create_output_writer (add_results : AddResults) : List String :=
  outputWriterDefaults ++ resultsOf add_results

/-! ## Simulation runner: run_time_simulation (lines 237-280) -/

/-- One result DataFrame in the OutputWriter's output dict after
run_timeseries: columns labeled by equipment indices, one row of values per
time step. -/
structure SimTable where
  columns : List ℤ
  rows : List (List ℚ)
deriving DecidableEq, Repr

/-- A post-processed result table of run_time_simulation: indexed by the
common timestamps, columns renamed where the name mapping applies (an index
absent from the mapping keeps its integer label, as DataFrame.rename leaves
unmatched labels unchanged). -/
structure ResultTable where
  index : List ℕ
  columns : List (ℤ ⊕ String)
  rows : List (List ℚ)
deriving DecidableEq, Repr

/-- Line 262: eq = key.replace("res_", "").split(".")[0]. -/
def eqOfKey (key : String) : String :=
  ((key.replace "res_" "").splitOn ".").headD ""

/-- Line 263: dict(zip(net[eq].index, net[eq].name)). A duplicated index key
keeps the last pair, as a Python dict built from zip does, hence the reverse
lookup when the mapping is applied. -/
def nameMapping (eqs : List Equip) : List (ℤ × String) :=
  eqs.map (fun e => (e.idx, e.name))

/-- Line 264: DataFrame.rename(columns=mapping) -- a label found in the
mapping becomes the mapped display name, any other label stays unchanged. -/
def renameColumns (m : List (ℤ × String)) (cols : List ℤ) : List (ℤ ⊕ String) :=
  cols.map (fun i =>
    match m.reverse.lookup i with
    | some n => Sum.inr n
    | none => Sum.inl i)

/-- Lines 258-264: every output entry except the reserved "Parameters" key
becomes a result table indexed by net["time_index"].Time with its columns
renamed through the class's index-to-name mapping. -/
def buildResults (net : Net) (output : List (String × SimTable)) :
    List (String × ResultTable) :=
  (output.filter (fun kv => kv.1 != "Parameters")).map
    (fun kv =>
      (kv.1,
       { index := net.time_index.getD []
         columns := renameColumns (nameMapping (net.equips (eqOfKey kv.1)))
           kv.2.columns
         rows := kv.2.rows }))

/-- Line 267: os.path.join(folder, output_filename + ".xlsx") for a relative
file name on a POSIX system. -/
def outputFilePath (folder fn : String) : String :=
  folder ++ "/" ++ fn ++ ".xlsx"

/-- Lines 237-280. The external effects are abstracted: run_timeseries only
populates the OutputWriter's output dict, passed here as the output argument,
and the fallible filesystem work of the try block (os.makedirs, ExcelWriter,
to_excel) is an oracle persistOk telling whether it raised. Python's
"if output_filename:" is false both for None and for the empty string.
Returns the results dict together with the emitted log entries; the except
clause of lines 274-279 logs the enclosing function's name
(traceback.extract_stack()[-1].name) and the target file path. -/
def run_time_simulation (net : Net) (output : List (String × SimTable))
    (output_filename : Option String) (folder : String) (persistOk : Bool) :
    List (String × ResultTable) × List LogEntry :=
  let results_df := buildResults net output
  match output_filename with
  | none => (results_df, [])
  | some fn =>
      if fn = "" then (results_df, [])
      else if persistOk then (results_df, [])
      else (results_df,
        [LogEntry.persistError "run_time_simulation" (outputFilePath folder fn)])

/-- A network with a time index for exercising run_time_simulation. -/
def exNet9 : Net :=
  { tables := [("bus", [{ idx := 0, name := "b0", profile_mapping := -1 },
      { idx := 1, name := "b1", profile_mapping := -1 }])],
    controller := [], time_index := some [0] }

/-- An OutputWriter output dict with the reserved Parameters entry and one
bus-voltage result. -/
def exOutput9 : List (String × SimTable) :=
  [("Parameters", { columns := [], rows := [] }),
   ("res_bus.vm_pu", { columns := [0, 1], rows := [[1, 1]] })]

/-! ## Profile binder: basic lemmas -/

theorem insertSorted_perm [LinearOrder α] (x : α) (l : List α) :
    List.Perm (insertSorted x l) (x :: l) := by
  induction l with
  | nil => simp [insertSorted]
  | cons y ys ih =>
    by_cases h : x ≤ y
    · simp [insertSorted, h]
    · simp only [insertSorted, if_neg h]
      exact (ih.cons y).trans (List.Perm.swap x y ys)

theorem sortAsc_perm [LinearOrder α] (l : List α) : List.Perm (sortAsc l) l := by
  induction l with
  | nil => simp [sortAsc]
  | cons x xs ih =>
    exact (insertSorted_perm x (sortAsc xs)).trans (ih.cons x)

theorem mem_sortAsc [LinearOrder α] {x : α} {l : List α} : x ∈ sortAsc l ↔ x ∈ l :=
  (sortAsc_perm l).mem_iff

theorem sortAsc_nodup [LinearOrder α] {l : List α} (h : l.Nodup) : (sortAsc l).Nodup :=
  ((sortAsc_perm l).nodup_iff).mpr h

theorem lookup_append_some {α β : Type*} [BEq α] {e : α} {l₁ l₂ : List (α × β)} {v : β}
    (h : l₁.lookup e = some v) : (l₁ ++ l₂).lookup e = some v := by
  induction l₁ with
  | nil => simp [List.lookup] at h
  | cons kv rest ih =>
    rw [List.cons_append]
    cases kv with
    | mk k b =>
      by_cases hk : e == k
      · simpa [List.lookup, hk] using (by simpa [List.lookup, hk] using h : b = v)
      · rw [List.lookup] at h
        simp only [hk] at h
        simpa [List.lookup, hk] using ih h

theorem lookup_append_none {α β : Type*} [BEq α] {e : α} {l₁ l₂ : List (α × β)}
    (h : l₁.lookup e = none) : (l₁ ++ l₂).lookup e = l₂.lookup e := by
  induction l₁ with
  | nil => simp
  | cons kv rest ih =>
    rw [List.cons_append]
    cases kv with
    | mk k b =>
      by_cases hk : e == k
      · rw [List.lookup] at h
        simp [hk] at h
      · rw [List.lookup] at h
        simp only [hk] at h
        simpa [List.lookup, hk] using ih h

theorem lookup_map_pair_some {e : ℤ} {L : List ℤ} {v : List ℚ} (h : e ∈ L) :
    (L.map (fun x => (x, v))).lookup e = some v := by
  induction L with
  | nil => simp at h
  | cons a as ih =>
    by_cases ha : e = a
    · simp [List.lookup, ha]
    · have h2 : e ∈ as := by
        rcases List.mem_cons.mp h with h1 | h1
        · exact absurd h1 ha
        · exact h1
      have hba : (e == a) = false := beq_eq_false_iff_ne.mpr ha
      simpa [List.lookup, hba] using ih h2

theorem lookup_map_pair_none {e : ℤ} {L : List ℤ} {v : List ℚ} (h : e ∉ L) :
    (L.map (fun x => (x, v))).lookup e = none := by
  induction L with
  | nil => simp [List.lookup]
  | cons a as ih =>
    have ha : e ≠ a := fun hh => h (hh ▸ List.mem_cons_self a as)
    have h2 : e ∉ as := fun hh => h (List.mem_cons_of_mem a hh)
    have hba : (e == a) = false := beq_eq_false_iff_ne.mpr ha
    simpa [List.lookup, hba] using ih h2

theorem mappedProfileOf_init (pm : List (ℤ × List ℤ)) (p : PTable)
    (init : List (ℤ × List ℚ)) :
    pm.foldl (fun acc kl =>
        if kl.1 ∈ p.cols then acc ++ kl.2.map (fun e => (e, p.col kl.1)) else acc) init
      = init ++ mappedProfileOf pm p := by
  induction pm generalizing init with
  | nil => simp [mappedProfileOf]
  | cons kl rest ih =>
    simp only [mappedProfileOf, List.foldl_cons]
    by_cases h : kl.1 ∈ p.cols
    · rw [if_pos h, if_pos h, ih, ih]
      simp
    · rw [if_neg h, if_neg h, ih]
      rfl

theorem mappedProfileOf_cons (kl : ℤ × List ℤ) (pm : List (ℤ × List ℤ)) (p : PTable) :
    mappedProfileOf (kl :: pm) p =
      (if kl.1 ∈ p.cols then kl.2.map (fun e => (e, p.col kl.1)) else [])
        ++ mappedProfileOf pm p := by
  simp only [mappedProfileOf, List.foldl_cons]
  by_cases h : kl.1 ∈ p.cols
  · rw [if_pos h, if_pos h]
    simpa using mappedProfileOf_init pm p _
  · rw [if_neg h, if_neg h]
    rfl

/-- Keys of the grouped dictionary are distinct. -/
theorem profileMappingDict_keys_nodup (eqs : List Equip) :
    ((profileMappingDict eqs).map Prod.fst).Nodup := by
  unfold profileMappingDict
  rw [List.map_map]
  have : (Prod.fst ∘ fun k => (k, (eqs.filter
      (fun e => decide (e.profile_mapping = k))).map (·.idx))) = id := rfl
  rw [this, List.map_id]
  exact sortAsc_nodup (List.nodup_dedup _)

/-- Membership of a key-group pair in the grouped dictionary determines the group. -/
theorem profileMappingDict_mem (eqs : List Equip) {k : ℤ} {L : List ℤ}
    (h : (k, L) ∈ profileMappingDict eqs) :
    L = (eqs.filter (fun e => decide (e.profile_mapping = k))).map (·.idx) := by
  unfold profileMappingDict at h
  obtain ⟨k2, _, hk⟩ := List.mem_map.mp h
  have h1 : k2 = k := congrArg Prod.fst hk
  subst h1
  exact (congrArg Prod.snd hk).symm

theorem profileMappingDict_key_mem (eqs : List Equip) {a : Equip} (ha : a ∈ eqs) :
    (a.profile_mapping,
      (eqs.filter (fun e => decide (e.profile_mapping = a.profile_mapping))).map (·.idx))
      ∈ profileMappingDict eqs := by
  unfold profileMappingDict
  refine List.mem_map.mpr ⟨a.profile_mapping, ?_, rfl⟩
  exact mem_sortAsc.mpr (List.mem_dedup.mpr (List.mem_map_of_mem _ ha))

theorem lookup_mappedProfileOf (p : PTable) (X e : ℤ) (pm : List (ℤ × List ℤ))
    (hkX : ∃ L, (X, L) ∈ pm ∧ e ∈ L)
    (hXcol : X ∈ p.cols)
    (hother : ∀ kl ∈ pm, kl.1 ≠ X → e ∉ kl.2) :
    (mappedProfileOf pm p).lookup e = some (p.col X) := by
  induction pm with
  | nil =>
    obtain ⟨L, hL, _⟩ := hkX
    simp at hL
  | cons kl rest ih =>
    rw [mappedProfileOf_cons]
    obtain ⟨L, hL, heL⟩ := hkX
    by_cases hel : e ∈ kl.2
    · have hk : kl.1 = X := by
        by_contra hne
        exact hother kl (List.mem_cons_self _ _) hne hel
      have hc : kl.1 ∈ p.cols := by rw [hk]; exact hXcol
      rw [if_pos hc, hk]
      exact lookup_append_some (lookup_map_pair_some hel)
    · have hseg : ((if kl.1 ∈ p.cols then kl.2.map (fun x => (x, p.col kl.1))
          else []) : List (ℤ × List ℚ)).lookup e = none := by
        by_cases hc : kl.1 ∈ p.cols
        · rw [if_pos hc]; exact lookup_map_pair_none hel
        · rw [if_neg hc]; rfl
      rw [lookup_append_none hseg]
      apply ih
      · refine ⟨L, ?_, heL⟩
        rcases List.mem_cons.mp hL with h1 | h1
        · exfalso
          apply hel
          have h2 : kl.2 = L := congrArg Prod.snd h1.symm
          rw [h2]
          exact heL
        · exact h1
      · exact fun kl2 h2 => hother kl2 (List.mem_cons_of_mem _ h2)

/-- C1: Broadcast correctness of the Profile Binder. For an equipment class
whose profile-mapping dictionary is non-empty, and a profile identifier X that
is both a key of the mapping and a column of the incoming table, the mapped
table built by apply_power_profile gives every equipment index mapped to X a
column equal, at every timestamp, to the source column X. (The mapping is
non-empty exactly when the class table is; distinct equipment indices make the
groups disjoint.) -/
theorem apply_power_profile_broadcast (eqs : List Equip) (p : PTable) (X e : ℤ)
    (hnodup : (eqs.map (·.idx)).Nodup)
    (hX : X ∈ p.cols)
    (he : e ∈ (eqs.filter (fun a => decide (a.profile_mapping = X))).map (·.idx)) :
    profileMappingDict eqs ≠ [] ∧
      (mappedOf eqs (profileMappingDict eqs) p).lookup e = some (p.col X) := by
  obtain ⟨a, ha, hae⟩ := List.mem_map.mp he
  have hafil := List.mem_filter.mp ha
  have haX : a.profile_mapping = X := of_decide_eq_true hafil.2
  subst haX
  subst hae
  have hinj := List.inj_on_of_nodup_map hnodup
  have hkey := profileMappingDict_key_mem eqs hafil.1
  have hpm_ne : profileMappingDict eqs ≠ [] := by
    intro h0
    rw [h0] at hkey
    simp at hkey
  refine ⟨hpm_ne, ?_⟩
  rw [mappedOf, if_neg hpm_ne]
  refine lookup_mappedProfileOf p _ _ _ ⟨_, hkey, List.mem_map_of_mem _ ha⟩ hX ?_
  · intro kl hkl hne hmem
    have hgrp := profileMappingDict_mem eqs hkl
    rw [hgrp] at hmem
    obtain ⟨b, hb, hbe⟩ := List.mem_map.mp hmem
    have hbfil := List.mem_filter.mp hb
    have hbk : b.profile_mapping = kl.1 := of_decide_eq_true hbfil.2
    have hba : b = a := hinj hbfil.1 hafil.1 hbe
    exact hne (by rw [← hbk, hba])

/-- C1 witness: profile identifier 5 maps to equipment indices 3 and 7; both
receive the source column. -/
theorem apply_power_profile_broadcast_witness :
    (mappedOf
        [⟨3, "L3", 5⟩, ⟨7, "L7", 5⟩]
        (profileMappingDict [⟨3, "L3", 5⟩, ⟨7, "L7", 5⟩])
        { index := [0, 60000000], cols := [5], rows := [[2], [4]] }).lookup 7
      = some (PTable.col { index := [0, 60000000], cols := [5], rows := [[2], [4]] } 5) :=
  (apply_power_profile_broadcast
    [⟨3, "L3", 5⟩, ⟨7, "L7", 5⟩]
    { index := [0, 60000000], cols := [5], rows := [[2], [4]] }
    5 7 (by decide) (by decide) (by decide)).2

/-! ## Profile binder: loop characterization -/

theorem applyVar_exn (equipment : String) (eqs : List Equip) (pm : List (ℤ × List ℤ))
    (st : BindState) (vp : String × Option PTable) (h : st.exn.isSome = true) :
    applyVar equipment eqs pm st vp = st := by
  simp [applyVar, h]

theorem foldl_applyVar_exn (equipment : String) (eqs : List Equip) (pm : List (ℤ × List ℤ))
    (pps : List (String × Option PTable)) (st : BindState) (h : st.exn.isSome = true) :
    pps.foldl (applyVar equipment eqs pm) st = st := by
  induction pps with
  | nil => rfl
  | cons vp rest ih =>
    rw [List.foldl_cons, applyVar_exn _ _ _ _ _ h]
    exact ih

theorem foldl_applyVar_ok (equipment : String) (eqs : List Equip) (pm : List (ℤ × List ℤ))
    (pps : List (String × Option PTable)) (ti : Option (List ℕ)) (cs : List Controller)
    (ls : List LogEntry) (hc : bindCompat ti pps = true) :
    pps.foldl (applyVar equipment eqs pm) ⟨ti, cs, ls, none⟩ =
      ⟨tiAfter ti pps, cs ++ newCtrlsOf equipment eqs pm pps,
        ls ++ newLogsOf eqs pm ti pps, none⟩ := by
  induction pps generalizing ti cs ls with
  | nil => simp [tiAfter, newCtrlsOf, newLogsOf]
  | cons vp rest ih =>
    obtain ⟨v, op⟩ := vp
    cases op with
    | none =>
      have hstep : applyVar equipment eqs pm ⟨ti, cs, ls, none⟩ (v, none)
          = ⟨ti, cs, ls, none⟩ := by
        simp [applyVar]
      rw [List.foldl_cons, hstep]
      cases ti with
      | none =>
        rw [ih _ _ _ (by simpa [bindCompat] using hc)]
        simp [tiAfter, newCtrlsOf, newLogsOf]
      | some t =>
        rw [ih _ _ _ (by simpa [bindCompat] using hc)]
        simp [tiAfter, newCtrlsOf, newLogsOf]
    | some p =>
      cases ti with
      | none =>
        have hstep : applyVar equipment eqs pm ⟨none, cs, ls, none⟩ (v, some p) =
            ⟨some p.index, cs ++ [ctrlOf equipment eqs pm v p],
              ls ++ varWarnLogs eqs pm v p, none⟩ := by
          simp [applyVar]
        rw [List.foldl_cons, hstep, ih _ _ _ (by simpa [bindCompat] using hc)]
        simp [tiAfter, newCtrlsOf, newLogsOf]
      | some t =>
        have hlen : t.length = p.index.length := by
          simp [bindCompat] at hc
          exact hc.1
        have hrest : bindCompat (some t) rest = true := by
          simp [bindCompat] at hc
          exact hc.2
        have hstep : applyVar equipment eqs pm ⟨some t, cs, ls, none⟩ (v, some p) =
            ⟨some t, cs ++ [ctrlOf equipment eqs pm v p],
              ls ++ ((if t ≠ p.index then [LogEntry.timestampsError] else [])
                ++ varWarnLogs eqs pm v p), none⟩ := by
          simp [applyVar, hlen]
        rw [List.foldl_cons, hstep, ih _ _ _ hrest]
        simp [tiAfter, newCtrlsOf, newLogsOf]

theorem bindCompat_of_foldl_exn_none (equipment : String) (eqs : List Equip)
    (pm : List (ℤ × List ℤ)) (pps : List (String × Option PTable))
    (ti : Option (List ℕ)) (cs : List Controller) (ls : List LogEntry)
    (h : (pps.foldl (applyVar equipment eqs pm) ⟨ti, cs, ls, none⟩).exn = none) :
    bindCompat ti pps = true := by
  induction pps generalizing ti cs ls with
  | nil => cases ti <;> rfl
  | cons vp rest ih =>
    obtain ⟨v, op⟩ := vp
    cases op with
    | none =>
      have hstep : applyVar equipment eqs pm ⟨ti, cs, ls, none⟩ (v, none)
          = ⟨ti, cs, ls, none⟩ := by
        simp [applyVar]
      rw [List.foldl_cons, hstep] at h
      cases ti with
      | none => simpa [bindCompat] using ih _ _ _ h
      | some t => simpa [bindCompat] using ih _ _ _ h
    | some p =>
      cases ti with
      | none =>
        have hstep : applyVar equipment eqs pm ⟨none, cs, ls, none⟩ (v, some p) =
            ⟨some p.index, cs ++ [ctrlOf equipment eqs pm v p],
              ls ++ varWarnLogs eqs pm v p, none⟩ := by
          simp [applyVar]
        rw [List.foldl_cons, hstep] at h
        simpa [bindCompat] using ih _ _ _ h
      | some t =>
        by_cases hlen : t.length = p.index.length
        · have hstep : applyVar equipment eqs pm ⟨some t, cs, ls, none⟩ (v, some p) =
              ⟨some t, cs ++ [ctrlOf equipment eqs pm v p],
                ls ++ ((if t ≠ p.index then [LogEntry.timestampsError] else [])
                  ++ varWarnLogs eqs pm v p), none⟩ := by
            simp [applyVar, hlen]
          rw [List.foldl_cons, hstep] at h
          have h2 := ih _ _ _ h
          simp [bindCompat, hlen, h2]
        · have hstep : applyVar equipment eqs pm ⟨some t, cs, ls, none⟩ (v, some p) =
              ⟨some t, cs, ls,
                some "Can only compare identically-labeled DataFrame objects"⟩ := by
            simp [applyVar, hlen]
          rw [List.foldl_cons, hstep] at h
          rw [foldl_applyVar_exn _ _ _ rest
            ⟨some t, cs, ls, some "Can only compare identically-labeled DataFrame objects"⟩
            rfl] at h
          simp at h

theorem bindCompat_cons_skip (x : Option (List ℕ)) (v : String)
    (rest : List (String × Option PTable)) :
    bindCompat x ((v, none) :: rest) = bindCompat x rest := by
  cases x <;> rfl

theorem tiAfter_some (t : List ℕ) (pps : List (String × Option PTable)) :
    tiAfter (some t) pps = some t := by
  induction pps with
  | nil => rfl
  | cons vp rest ih => simpa [tiAfter] using ih

theorem bindCompat_tiAfter_none (pps : List (String × Option PTable)) :
    bindCompat none pps = true → bindCompat (tiAfter none pps) pps = true := by
  induction pps with
  | nil => intro _; rfl
  | cons vp rest ih =>
    intro h
    obtain ⟨v, op⟩ := vp
    cases op with
    | none =>
      have h2 : bindCompat none rest = true := by simpa [bindCompat] using h
      have h3 := ih h2
      rw [show tiAfter none ((v, none) :: rest) = tiAfter none rest from by
        simp [tiAfter]]
      rw [bindCompat_cons_skip]
      exact h3
    | some p =>
      have h2 : bindCompat (some p.index) rest = true := by simpa [bindCompat] using h
      rw [show tiAfter none ((v, some p) :: rest) = some p.index from by
        simp [tiAfter, tiAfter_some]]
      simp [bindCompat, h2]

theorem bindCompat_tiAfter (ti : Option (List ℕ)) (pps : List (String × Option PTable))
    (h : bindCompat ti pps = true) : bindCompat (tiAfter ti pps) pps = true := by
  cases ti with
  | some t => rwa [tiAfter_some]
  | none => exact bindCompat_tiAfter_none pps h

theorem ctrls0_eq_filter (l : List Controller) (equipment : String) :
    (if l = [] then l else l.filter (fun c => decide (c.element ≠ equipment)))
      = l.filter (fun c => decide (c.element ≠ equipment)) := by
  by_cases h : l = [] <;> simp [h]

theorem newCtrlsOf_mem (equipment : String) (eqs : List Equip) (pm : List (ℤ × List ℤ))
    (pps : List (String × Option PTable)) {c : Controller}
    (hc : c ∈ newCtrlsOf equipment eqs pm pps) :
    ∃ v p, (v, some p) ∈ pps ∧ c = ctrlOf equipment eqs pm v p := by
  obtain ⟨vp, hvp, hm⟩ := List.mem_filterMap.mp hc
  cases hop : vp.2 with
  | none => rw [hop] at hm; simp at hm
  | some p =>
    rw [hop] at hm
    refine ⟨vp.1, p, by rw [← hop]; exact hvp, ?_⟩
    have h2 : some (ctrlOf equipment eqs pm vp.1 p) = some c := hm
    exact (Option.some.inj h2).symm

theorem newCtrlsOf_element (equipment : String) (eqs : List Equip) (pm : List (ℤ × List ℤ))
    (pps : List (String × Option PTable)) {c : Controller}
    (hc : c ∈ newCtrlsOf equipment eqs pm pps) : c.element = equipment := by
  obtain ⟨v, p, _, rfl⟩ := newCtrlsOf_mem equipment eqs pm pps hc
  rfl

theorem apply_power_profile_eq_of_compat (net : Net) (equipment : String)
    (pps : List (String × Option PTable))
    (hc : bindCompat net.time_index pps = true) :
    apply_power_profile net equipment pps =
      ({ net with
          controller := net.controller.filter (fun c => decide (c.element ≠ equipment))
            ++ newCtrlsOf equipment (net.equips equipment)
                (profileMappingDict (net.equips equipment)) pps,
          time_index := tiAfter net.time_index pps },
        newLogsOf (net.equips equipment) (profileMappingDict (net.equips equipment))
          net.time_index pps,
        none) := by
  simp only [apply_power_profile]
  rw [ctrls0_eq_filter, foldl_applyVar_ok _ _ _ _ _ _ _ hc]
  rfl

theorem apply_power_profile_compat_of_ok (net : Net) (equipment : String)
    (pps : List (String × Option PTable))
    (h : (apply_power_profile net equipment pps).2.2 = none) :
    bindCompat net.time_index pps = true := by
  simp only [apply_power_profile] at h
  exact bindCompat_of_foldl_exn_none _ _ _ _ _ _ _ h

/-- C2: Re-binding idempotence. apply_power_profile removes every controller
registration whose element equals the bound class before adding new ones, so
two successive calls binding the same profiles to the same class leave the
network with exactly the controller table the first call produced: at most
one active registration set per class at any time. -/
theorem apply_power_profile_rebind_idempotent (net : Net) (equipment : String)
    (pps : List (String × Option PTable))
    (h1 : (apply_power_profile net equipment pps).2.2 = none) :
    (apply_power_profile (apply_power_profile net equipment pps).1 equipment pps).2.2
        = none ∧
      (apply_power_profile (apply_power_profile net equipment pps).1 equipment pps).1.controller
        = (apply_power_profile net equipment pps).1.controller := by
  have hc1 := apply_power_profile_compat_of_ok net equipment pps h1
  have he1 := apply_power_profile_eq_of_compat net equipment pps hc1
  rw [he1]
  have hc2 : bindCompat (tiAfter net.time_index pps) pps = true :=
    bindCompat_tiAfter net.time_index pps hc1
  have he2 := apply_power_profile_eq_of_compat
    ({ net with
        controller := net.controller.filter (fun c => decide (c.element ≠ equipment))
          ++ newCtrlsOf equipment (net.equips equipment)
              (profileMappingDict (net.equips equipment)) pps,
        time_index := tiAfter net.time_index pps })
    equipment pps hc2
  rw [he2]
  refine ⟨rfl, ?_⟩
  show (net.controller.filter (fun c => decide (c.element ≠ equipment))
      ++ newCtrlsOf equipment (net.equips equipment)
          (profileMappingDict (net.equips equipment)) pps).filter
        (fun c => decide (c.element ≠ equipment))
      ++ newCtrlsOf equipment (net.equips equipment)
          (profileMappingDict (net.equips equipment)) pps
    = net.controller.filter (fun c => decide (c.element ≠ equipment))
      ++ newCtrlsOf equipment (net.equips equipment)
          (profileMappingDict (net.equips equipment)) pps
  rw [List.filter_append]
  have hself : (net.controller.filter (fun c => decide (c.element ≠ equipment))).filter
      (fun c => decide (c.element ≠ equipment))
      = net.controller.filter (fun c => decide (c.element ≠ equipment)) := by
    apply List.filter_eq_self.mpr
    intro c hcmem
    exact (List.mem_filter.mp hcmem).2
  have hnil : (newCtrlsOf equipment (net.equips equipment)
      (profileMappingDict (net.equips equipment)) pps).filter
        (fun c => decide (c.element ≠ equipment)) = [] := by
    apply List.filter_eq_nil_iff.mpr
    intro c hcmem
    have := newCtrlsOf_element _ _ _ _ hcmem
    simp [this]
  rw [hself, hnil, List.append_nil]

/-- C2 witness: binding a one-variable profile set twice to the load class of
a one-load network leaves the controllers of the first binding unchanged. -/
theorem apply_power_profile_rebind_idempotent_witness :
    ((apply_power_profile exNet "load" [("p_mw", some exProfile)]).2.2 = none)
    ∧ (apply_power_profile
          (apply_power_profile exNet "load" [("p_mw", some exProfile)]).1
          "load" [("p_mw", some exProfile)]).1.controller
      = (apply_power_profile exNet "load" [("p_mw", some exProfile)]).1.controller :=
  ⟨by decide,
    (apply_power_profile_rebind_idempotent exNet "load" [("p_mw", some exProfile)]
      (by decide)).2⟩

theorem applyVar_ctrls (equipment : String) (eqs : List Equip) (pm : List (ℤ × List ℤ))
    (st : BindState) (vp : String × Option PTable) :
    (applyVar equipment eqs pm st vp).ctrls = st.ctrls ∨
      ∃ p, vp.2 = some p ∧
        (applyVar equipment eqs pm st vp).ctrls
          = st.ctrls ++ [ctrlOf equipment eqs pm vp.1 p] := by
  by_cases hexn : st.exn.isSome = true
  · rw [applyVar_exn _ _ _ _ _ hexn]
    exact Or.inl rfl
  · rw [Bool.not_eq_true] at hexn
    cases hop : vp.2 with
    | none =>
      left
      simp [applyVar, hexn, hop]
    | some p =>
      cases hti : st.timeIndex with
      | none =>
        right
        exact ⟨p, rfl, by simp [applyVar, hexn, hop, hti]⟩
      | some t =>
        by_cases hlen : t.length = p.index.length
        · right
          exact ⟨p, rfl, by simp [applyVar, hexn, hop, hti, hlen]⟩
        · left
          simp [applyVar, hexn, hop, hti, hlen]

theorem foldl_applyVar_ctrls_mem (equipment : String) (eqs : List Equip)
    (pm : List (ℤ × List ℤ)) (pps : List (String × Option PTable)) (st : BindState) :
    ∀ c ∈ (pps.foldl (applyVar equipment eqs pm) st).ctrls,
      c ∈ st.ctrls ∨ ∃ v p, c = ctrlOf equipment eqs pm v p := by
  induction pps generalizing st with
  | nil => exact fun c hc => Or.inl hc
  | cons vp rest ih =>
    intro c hc
    rw [List.foldl_cons] at hc
    rcases ih (applyVar equipment eqs pm st vp) c hc with hmem | hnew
    · rcases applyVar_ctrls equipment eqs pm st vp with hsame | ⟨p, _, happ⟩
      · rw [hsame] at hmem
        exact Or.inl hmem
      · rw [happ] at hmem
        rcases List.mem_append.mp hmem with h1 | h1
        · exact Or.inl h1
        · exact Or.inr ⟨vp.1, p, List.mem_singleton.mp h1⟩
    · exact Or.inr hnew

theorem mappedProfileOf_fst_mem (p : PTable) (pm : List (ℤ × List ℤ)) {i : ℤ}
    (hi : i ∈ (mappedProfileOf pm p).map Prod.fst) :
    ∃ kl ∈ pm, kl.1 ∈ p.cols ∧ i ∈ kl.2 := by
  induction pm with
  | nil => simp [mappedProfileOf] at hi
  | cons kl rest ih =>
    rw [mappedProfileOf_cons, List.map_append] at hi
    rcases List.mem_append.mp hi with h1 | h1
    · by_cases hc : kl.1 ∈ p.cols
      · rw [if_pos hc, List.map_map] at h1
        obtain ⟨x, hx, hxe⟩ := List.mem_map.mp h1
        exact ⟨kl, List.mem_cons_self _ _, hc, by rw [← hxe]; exact hx⟩
      · rw [if_neg hc] at h1
        simp at h1
    · obtain ⟨kl2, hkl2, hrest⟩ := ih h1
      exact ⟨kl2, List.mem_cons_of_mem _ hkl2, hrest⟩

theorem fallbackProfileOf_fst_mem (eqs : List Equip) (p : PTable) {i : ℤ}
    (hi : i ∈ (fallbackProfileOf eqs p).map Prod.fst) : i ∈ eqs.map (·.idx) := by
  rw [fallbackProfileOf, List.map_map] at hi
  obtain ⟨x, hx, hxe⟩ := List.mem_map.mp hi
  rw [← hxe]
  exact List.mem_of_mem_filter hx

theorem mappedOf_fst_subset (eqs : List Equip) (p : PTable) {i : ℤ}
    (hi : i ∈ (mappedOf eqs (profileMappingDict eqs) p).map Prod.fst) :
    i ∈ eqs.map (·.idx) := by
  rw [mappedOf] at hi
  by_cases hpm : profileMappingDict eqs = []
  · rw [if_pos hpm] at hi
    exact fallbackProfileOf_fst_mem eqs p hi
  · rw [if_neg hpm] at hi
    obtain ⟨kl, hkl, _, hik⟩ := mappedProfileOf_fst_mem p _ hi
    rw [profileMappingDict_mem eqs hkl] at hik
    obtain ⟨b, hb, hbe⟩ := List.mem_map.mp hik
    rw [← hbe]
    exact List.mem_map_of_mem _ (List.mem_of_mem_filter hb)

/-- C10: Controller-index invariant. Every controller registration created by
apply_power_profile drives only equipment indices present in the class's own
table: in the mapped path the bound columns come from the profile_mapping
grouping of the class index, in the fallback path from the intersection of the
class index with the profile's columns; pre-existing registrations are left
as they were. -/
theorem apply_power_profile_element_index_subset (net : Net) (equipment : String)
    (pps : List (String × Option PTable)) (c : Controller)
    (hc : c ∈ (apply_power_profile net equipment pps).1.controller) :
    c ∈ net.controller ∨
      c.element = equipment ∧
        ∀ i ∈ c.element_index, i ∈ (net.equips equipment).map (·.idx) := by
  simp only [apply_power_profile] at hc
  rcases foldl_applyVar_ctrls_mem _ _ _ _ _ c hc with hmem | ⟨v, p, rfl⟩
  · left
    rw [ctrls0_eq_filter] at hmem
    exact List.mem_of_mem_filter hmem
  · right
    exact ⟨rfl, fun i hi => mappedOf_fst_subset _ _ hi⟩

/-- C10 witness: the registration created for a one-load network drives only
index 0, which is the load table's index. -/
theorem apply_power_profile_element_index_subset_witness :
    exCtrl ∈ exNet.controller ∨
      exCtrl.element = "load" ∧
        ∀ i ∈ exCtrl.element_index, i ∈ (exNet.equips "load").map (·.idx) :=
  apply_power_profile_element_index_subset exNet "load" [("p_mw", some exProfile)]
    exCtrl (by decide)

theorem equipName_eq (eqs : List Equip) (e : Equip) (he : e ∈ eqs)
    (hnodup : (eqs.map (·.idx)).Nodup) : equipName eqs e.idx = e.name := by
  induction eqs with
  | nil => cases he
  | cons a as ih =>
    by_cases ha : a.idx = e.idx
    · have hae : a = e := List.inj_on_of_nodup_map hnodup (List.mem_cons_self a as) he ha
      simp only [equipName]
      rw [List.find?_cons_of_pos _ (by simp [ha])]
      simp [hae]
    · have hne : e ∈ as := by
        rcases List.mem_cons.mp he with h1 | h1
        · exact absurd (congrArg Equip.idx h1.symm) ha
        · exact h1
      have htail : (as.map (·.idx)).Nodup := (List.nodup_cons.mp hnodup).2
      simp only [equipName]
      rw [List.find?_cons_of_neg _ (by simp [ha])]
      simpa [equipName] using ih hne htail

theorem unassigned_not_in_mappedOf (eqs : List Equip) (e : Equip) (p : PTable)
    (he : e ∈ eqs) (hpm : e.profile_mapping = -1)
    (hnodup : (eqs.map (·.idx)).Nodup) (hnocol : (-1 : ℤ) ∉ p.cols) :
    e.idx ∉ (mappedOf eqs (profileMappingDict eqs) p).map Prod.fst := by
  intro hmem
  have hpmne : profileMappingDict eqs ≠ [] := by
    intro h0
    have hk := profileMappingDict_key_mem eqs he
    rw [h0] at hk
    simp at hk
  rw [mappedOf, if_neg hpmne] at hmem
  obtain ⟨kl, hkl, hcol, hik⟩ := mappedProfileOf_fst_mem p _ hmem
  rw [profileMappingDict_mem eqs hkl] at hik
  obtain ⟨b, hb, hbe⟩ := List.mem_map.mp hik
  have hbfil := List.mem_filter.mp hb
  have hbk : b.profile_mapping = kl.1 := of_decide_eq_true hbfil.2
  have hba : b = e := List.inj_on_of_nodup_map hnodup hbfil.1 he hbe
  rw [hba, hpm] at hbk
  rw [← hbk] at hcol
  exact hnocol hcol

theorem varWarnLogs_unassigned (eqs : List Equip) (e : Equip) (p : PTable) (v : String)
    (he : e ∈ eqs) (hpm : e.profile_mapping = -1)
    (hnodup : (eqs.map (·.idx)).Nodup) (hnocol : (-1 : ℤ) ∉ p.cols) :
    (varWarnLogs eqs (profileMappingDict eqs) v p).countP
        (fun l => match l with
          | LogEntry.unmappedWarning names _ => decide (e.name ∈ names)
          | _ => false) = 1 := by
  have hnotin := unassigned_not_in_mappedOf eqs e p he hpm hnodup hnocol
  have hunm : e.idx ∈ unmappedOf eqs
      ((mappedOf eqs (profileMappingDict eqs) p).map Prod.fst) := by
    rw [unmappedOf, mem_sortAsc, List.mem_dedup]
    exact List.mem_filter.mpr ⟨List.mem_map_of_mem _ he, decide_eq_true hnotin⟩
  have hname : e.name ∈ (unmappedOf eqs
      ((mappedOf eqs (profileMappingDict eqs) p).map Prod.fst)).map (equipName eqs) := by
    have h2 := List.mem_map_of_mem (equipName eqs) hunm
    rwa [equipName_eq eqs e he hnodup] at h2
  simp only [varWarnLogs]
  rw [if_neg (List.ne_nil_of_mem hunm)]
  simp [List.countP_cons, hname]

theorem countP_newLogsOf_unassigned (eqs : List Equip) (e : Equip)
    (pps : List (String × Option PTable)) (ti : Option (List ℕ))
    (he : e ∈ eqs) (hpm : e.profile_mapping = -1)
    (hnodup : (eqs.map (·.idx)).Nodup)
    (hnocol : ∀ vp ∈ pps, ∀ p : PTable, vp.2 = some p → (-1 : ℤ) ∉ p.cols) :
    (newLogsOf eqs (profileMappingDict eqs) ti pps).countP
        (fun l => match l with
          | LogEntry.unmappedWarning names _ => decide (e.name ∈ names)
          | _ => false)
      = pps.countP (fun vp => vp.2.isSome) := by
  induction pps generalizing ti with
  | nil => cases ti <;> simp [newLogsOf]
  | cons vp rest ih =>
    have hrest : ∀ vp2 ∈ rest, ∀ p : PTable, vp2.2 = some p → (-1 : ℤ) ∉ p.cols :=
      fun vp2 h => hnocol vp2 (List.mem_cons_of_mem _ h)
    obtain ⟨v, op⟩ := vp
    cases op with
    | none =>
      cases ti with
      | none => simpa [newLogsOf, List.countP_cons] using ih none hrest
      | some t => simpa [newLogsOf, List.countP_cons] using ih (some t) hrest
    | some p =>
      have hcol : (-1 : ℤ) ∉ p.cols := hnocol (v, some p) (List.mem_cons_self _ _) p rfl
      have hone := varWarnLogs_unassigned eqs e p v he hpm hnodup hcol
      cases ti with
      | none =>
        simp only [newLogsOf, List.countP_append, List.countP_cons, hone,
          ih (some p.index) hrest]
        simp only [Option.isSome_some, if_true, List.countP_nil]
        omega
      | some t =>
        simp only [newLogsOf, List.countP_append, List.countP_cons, hone,
          ih (some t) hrest]
        by_cases hne : t ≠ p.index
        · rw [if_pos hne]
          rw [show List.countP (fun l => match l with
              | LogEntry.unmappedWarning names _ => decide (e.name ∈ names)
              | _ => false) [LogEntry.timestampsError] = 0 from rfl]
          simp only [List.countP_nil, Option.isSome_some, if_true]
          omega
        · rw [if_neg hne]
          simp only [List.countP_nil, Option.isSome_some, if_true]
          omega

/-- C3 counterexample: an equipment index whose profile_mapping is -1, when a
profile column labeled -1 exists, does receive a bound column (the sole
registered controller drives index 0 with the -1 column's series) and no
warning is logged; the claim's exclusion of -1 does not hold on the code. -/
theorem apply_power_profile_minus_one_bound :
    (apply_power_profile
        { tables := [("load", [⟨0, "L0", -1⟩])], controller := [], time_index := none }
        "load" [("p_mw", some { index := [0], cols := [-1], rows := [[5]] })]).1.controller
      = [{ element := "load", element_index := [0], varName := "p_mw",
            data_source := [(0, [5])], profile_name := [0] }]
    ∧ (apply_power_profile
        { tables := [("load", [⟨0, "L0", -1⟩])], controller := [], time_index := none }
        "load" [("p_mw", some { index := [0], cols := [-1], rows := [[5]] })]).2.1 = [] := by
  decide

/-- C3 (amended): provided no profile column labeled -1 exists in any bound
table (and the call completes), an equipment index with profile_mapping = -1
receives no bound column — no controller of the call's class drives it — and,
per bound variable, exactly one warning naming that equipment's display name
is emitted; the binder does not fail. -/
theorem apply_power_profile_unassigned (net : Net) (equipment : String)
    (pps : List (String × Option PTable)) (e : Equip)
    (he : e ∈ net.equips equipment)
    (hpm : e.profile_mapping = -1)
    (hnodup : ((net.equips equipment).map (·.idx)).Nodup)
    (hnocol : ∀ vp ∈ pps, ∀ p : PTable, vp.2 = some p → (-1 : ℤ) ∉ p.cols)
    (hok : (apply_power_profile net equipment pps).2.2 = none) :
    (∀ c ∈ (apply_power_profile net equipment pps).1.controller,
        c.element = equipment → e.idx ∉ c.element_index) ∧
    (apply_power_profile net equipment pps).2.1.countP
        (fun l => match l with
          | LogEntry.unmappedWarning names _ => decide (e.name ∈ names)
          | _ => false)
      = pps.countP (fun vp => vp.2.isSome) := by
  have hc := apply_power_profile_compat_of_ok net equipment pps hok
  have heq := apply_power_profile_eq_of_compat net equipment pps hc
  rw [heq]
  constructor
  · intro c hcmem hel
    have hcmem2 : c ∈ net.controller.filter (fun c => decide (c.element ≠ equipment))
        ++ newCtrlsOf equipment (net.equips equipment)
            (profileMappingDict (net.equips equipment)) pps := hcmem
    rcases List.mem_append.mp hcmem2 with h1 | h1
    · have h2 := (List.mem_filter.mp h1).2
      simp [hel] at h2
    · obtain ⟨v, p, hvp, rfl⟩ := newCtrlsOf_mem _ _ _ _ h1
      intro hidx
      have hcolp : (-1 : ℤ) ∉ p.cols := hnocol (v, some p) hvp p rfl
      exact unassigned_not_in_mappedOf _ e p he hpm hnodup hcolp hidx
  · exact countP_newLogsOf_unassigned _ e pps net.time_index he hpm hnodup hnocol

/-- C3 witness: in a two-load network where load 0 is unassigned and the single
bound table has only column 7, load 0 receives no column and is warned about
exactly once. -/
theorem apply_power_profile_unassigned_witness :
    (∀ c ∈ (apply_power_profile exNet3 "load" [("p_mw", some exProfile3)]).1.controller,
        c.element = "load" → (0 : ℤ) ∉ c.element_index) ∧
    (apply_power_profile exNet3 "load" [("p_mw", some exProfile3)]).2.1.countP
        (fun l => match l with
          | LogEntry.unmappedWarning names _ => decide ("L0" ∈ names)
          | _ => false)
      = ([("p_mw", some exProfile3)]).countP (fun vp => vp.2.isSome) :=
  apply_power_profile_unassigned exNet3 "load" [("p_mw", some exProfile3)]
    ⟨0, "L0", -1⟩ (by decide) rfl (by decide)
    (by
      intro vp hvp p hp
      rw [List.mem_singleton] at hvp
      subst hvp
      injection hp with hp2
      subst hp2
      decide)
    (by decide)

/-- C7 counterexample: a first binding establishes a two-step time index; a
subsequent binding whose table has only one time label (an index that differs
from the established one) makes the pandas DataFrame comparison itself raise
instead of merely logging: the binder propagates an exception. -/
theorem apply_power_profile_length_mismatch_raises :
    (apply_power_profile
        (apply_power_profile exNet "load" [("p_mw", some exProfile2)]).1
        "load" [("p_mw", some exProfile)]).2.2
      = some "Can only compare identically-labeled DataFrame objects" := by
  decide

/-- C7 (amended): the first bound table establishes the network's common time
index from its time labels; a subsequent binding whose table has the same
number of time labels but different labels logs a timestamps error, does not
raise, leaves the established index unchanged and still registers its
controller; a subsequent binding whose table has a different number of time
labels raises the DataFrame comparison exception. -/
theorem apply_power_profile_time_consistency (net : Net) (equipment v : String)
    (p : PTable) :
    (net.time_index = none →
      (apply_power_profile net equipment [(v, some p)]).1.time_index = some p.index ∧
      (apply_power_profile net equipment [(v, some p)]).2.2 = none) ∧
    (∀ t, net.time_index = some t → p.index.length = t.length → p.index ≠ t →
      (apply_power_profile net equipment [(v, some p)]).2.2 = none ∧
      LogEntry.timestampsError ∈ (apply_power_profile net equipment [(v, some p)]).2.1 ∧
      (apply_power_profile net equipment [(v, some p)]).1.controller
        = net.controller.filter (fun c => decide (c.element ≠ equipment))
          ++ [ctrlOf equipment (net.equips equipment)
                (profileMappingDict (net.equips equipment)) v p] ∧
      (apply_power_profile net equipment [(v, some p)]).1.time_index = some t) ∧
    (∀ t, net.time_index = some t → p.index.length ≠ t.length →
      (apply_power_profile net equipment [(v, some p)]).2.2
        = some "Can only compare identically-labeled DataFrame objects") := by
  refine ⟨?_, ?_, ?_⟩
  · intro hti
    have hc : bindCompat net.time_index [(v, some p)] = true := by
      rw [hti]
      rfl
    rw [apply_power_profile_eq_of_compat net equipment [(v, some p)] hc, hti]
    exact ⟨rfl, rfl⟩
  · intro t hti hlen hne
    have hc : bindCompat net.time_index [(v, some p)] = true := by
      rw [hti]
      simp [bindCompat, hlen.symm]
    rw [apply_power_profile_eq_of_compat net equipment [(v, some p)] hc, hti]
    refine ⟨rfl, ?_, ?_, ?_⟩
    · show LogEntry.timestampsError
        ∈ newLogsOf (net.equips equipment) (profileMappingDict (net.equips equipment))
            (some t) [(v, some p)]
      have htne : t ≠ p.index := hne.symm
      simp [newLogsOf, if_pos htne]
    · show _ ++ newCtrlsOf equipment (net.equips equipment)
          (profileMappingDict (net.equips equipment)) [(v, some p)] = _
      rfl
    · show tiAfter (some t) [(v, some p)] = some t
      exact tiAfter_some t _
  · intro t hti hlen
    simp only [apply_power_profile, List.foldl_cons, List.foldl_nil, hti]
    have hlen2 : t.length ≠ p.index.length := fun h => hlen h.symm
    simp [applyVar, hlen2]

/-- C7 witness: on a network with established index [0, 1800000000], binding a
table indexed [0, 3600000000] (same length, different labels) is non-fatal,
logs the timestamps error and still registers the controller. -/
theorem apply_power_profile_time_consistency_witness :
    (apply_power_profile exNetT "load" [("p_mw", some exProfileT)]).2.2 = none ∧
    LogEntry.timestampsError
        ∈ (apply_power_profile exNetT "load" [("p_mw", some exProfileT)]).2.1 ∧
    (apply_power_profile exNetT "load" [("p_mw", some exProfileT)]).1.controller
      = exNetT.controller.filter (fun c => decide (c.element ≠ "load"))
        ++ [ctrlOf "load" (exNetT.equips "load")
              (profileMappingDict (exNetT.equips "load")) "p_mw" exProfileT] ∧
    (apply_power_profile exNetT "load" [("p_mw", some exProfileT)]).1.time_index
      = some [0, 1800000000] :=
  (apply_power_profile_time_consistency exNetT "load" "p_mw" exProfileT).2.1
    [0, 1800000000] rfl (by decide) (by decide)

/-! ## Network loader: generic lemmas -/

theorem mapME_ok_length {α β : Type} {f : α → Except String β} :
    ∀ {l : List α} {l2 : List β}, mapME f l = .ok l2 → l2.length = l.length := by
  intro l
  induction l with
  | nil =>
    intro l2 h
    unfold mapME at h
    cases h
    rfl
  | cons a as ih =>
    intro l2 h
    unfold mapME at h
    cases hfa : f a with
    | error e => rw [hfa] at h; cases h
    | ok b =>
      rw [hfa] at h
      cases hrest : mapME f as with
      | error e => rw [hrest] at h; cases h
      | ok bs =>
        rw [hrest] at h
        cases h
        simp [ih hrest]

theorem mapME_ok_getD {α β : Type} {f : α → Except String β} (dx : α) (dy : β) :
    ∀ {l : List α} {l2 : List β}, mapME f l = .ok l2 →
      ∀ i, i < l.length → f (l.getD i dx) = .ok (l2.getD i dy) := by
  intro l
  induction l with
  | nil => intro l2 _ i hi; simp at hi
  | cons a as ih =>
    intro l2 h i hi
    unfold mapME at h
    cases hfa : f a with
    | error e => rw [hfa] at h; cases h
    | ok b =>
      rw [hfa] at h
      cases hrest : mapME f as with
      | error e => rw [hrest] at h; cases h
      | ok bs =>
        rw [hrest] at h
        cases h
        cases i with
        | zero => simpa using hfa
        | succ i2 => simpa using ih hrest i2 (by simpa using hi)

theorem mapME_ok_mem {α β : Type} {f : α → Except String β} :
    ∀ {l : List α} {l2 : List β}, mapME f l = .ok l2 →
      ∀ b ∈ l2, ∃ a ∈ l, f a = .ok b := by
  intro l
  induction l with
  | nil =>
    intro l2 h b hb
    unfold mapME at h
    cases h
    simp at hb
  | cons a as ih =>
    intro l2 h b hb
    unfold mapME at h
    cases hfa : f a with
    | error e => rw [hfa] at h; cases h
    | ok b2 =>
      rw [hfa] at h
      cases hrest : mapME f as with
      | error e => rw [hrest] at h; cases h
      | ok bs =>
        rw [hrest] at h
        cases h
        rcases List.mem_cons.mp hb with rfl | hb2
        · exact ⟨a, List.mem_cons_self _ _, hfa⟩
        · obtain ⟨a2, ha2, hfa2⟩ := ih hrest b hb2
          exact ⟨a2, List.mem_cons_of_mem _ ha2, hfa2⟩

theorem mem_of_lookup_eq_some {β : Type} {a : String} {l : List (String × β)} {b : β}
    (h : l.lookup a = some b) : (a, b) ∈ l := by
  induction l with
  | nil => cases h
  | cons kv rest ih =>
    cases hbk : (a == kv.1) with
    | true =>
      have ha : a = kv.1 := eq_of_beq hbk
      have h2 : some kv.2 = some b := by
        simp only [List.lookup, hbk] at h
        exact h
      have h3 : (a, b) = kv := by
        rw [ha, ← Option.some.inj h2]
      rw [h3]
      exact List.mem_cons_self _ _
    | false =>
      simp only [List.lookup, hbk] at h
      exact List.mem_cons_of_mem _ (ih h)

theorem map_getD {α β : Type*} (f : α → β) (dx : α) (dy : β) (l : List α) (i : ℕ)
    (h : i < l.length) : (l.map f).getD i dy = f (l.getD i dx) := by
  rw [List.getD_eq_getElem _ _ (by simpa using h), List.getElem_map,
    List.getD_eq_getElem _ _ h]

theorem getD_mem {α : Type*} (l : List α) (i : ℕ) (d : α) (h : i < l.length) :
    l.getD i d ∈ l := by
  rw [List.getD_eq_getElem _ _ h]
  exact List.getElem_mem _

theorem zipmap_getD {γ : Type} (g : String × Cell → γ) (dg : γ) :
    ∀ (cols : List String) (r : List Cell) (j : ℕ), j < cols.length → j < r.length →
      ((cols.zip r).map g).getD j dg = g (cols.getD j "", r.getD j none) := by
  intro cols
  induction cols with
  | nil => intro r j hj _; simp at hj
  | cons c cs ih =>
    intro r j hj hr
    cases r with
    | nil => simp at hr
    | cons x xs =>
      cases j with
      | zero => simp
      | succ j2 => simpa using ih xs j2 (by simpa using hj) (by simpa using hr)

theorem zipmapME_getD (g : String × Cell → Except String Cell) :
    ∀ (cols : List String) (r out : List Cell) (j : ℕ),
      mapME g (cols.zip r) = .ok out → j < cols.length → j < r.length →
      g (cols.getD j "", r.getD j none) = .ok (out.getD j none) := by
  intro cols
  induction cols with
  | nil => intro r out j _ hj _; simp at hj
  | cons c cs ih =>
    intro r out j h hj hr
    cases r with
    | nil => simp at hr
    | cons x xs =>
      rw [List.zip_cons_cons] at h
      unfold mapME at h
      cases hg : g (c, x) with
      | error e => rw [hg] at h; cases h
      | ok b =>
        rw [hg] at h
        cases hrest : mapME g (cs.zip xs) with
        | error e => rw [hrest] at h; cases h
        | ok bs =>
          rw [hrest] at h
          cases h
          cases j with
          | zero => simpa using hg
          | succ j2 =>
            simpa using ih xs bs j2 hrest (by simpa using hj) (by simpa using hr)

theorem zipmap_length {γ : Type} (g : String × Cell → γ) (cols : List String)
    (r : List Cell) (h : r.length = cols.length) :
    ((cols.zip r).map g).length = cols.length := by
  rw [List.length_map, List.length_zip, h, Nat.min_self]

theorem zip_filter_fst_length (p : String → Bool) :
    ∀ (cols : List String) (r : List Cell), r.length = cols.length →
      ((cols.zip r).filter (fun cr => p cr.1)).length = (cols.filter p).length := by
  intro cols
  induction cols with
  | nil =>
    intro r h
    rw [List.length_eq_zero.mp h]
    rfl
  | cons c cs ih =>
    intro r h
    cases r with
    | nil => simp at h
    | cons x xs =>
      rw [List.zip_cons_cons]
      cases hp : p c with
      | true => simp [List.filter_cons, hp, ih xs (by simpa using h)]
      | false => simp [List.filter_cons, hp, ih xs (by simpa using h)]

theorem sheetMapME_inv (g : String × Cell → Except String Cell) (s : Sheet)
    (rows2 : List (List Cell))
    (hok : mapME (fun r => mapME g (s.cols.zip r)) s.rows = .ok rows2)
    (hwf : ∀ i, i < s.rows.length → (s.rows.getD i []).length = s.cols.length) :
    rows2.length = s.rows.length ∧
    (∀ i, i < s.rows.length → (rows2.getD i []).length = s.cols.length) ∧
    (∀ i j, i < s.rows.length → j < s.cols.length →
      g (s.cols.getD j "", (s.rows.getD i []).getD j none)
        = .ok ((rows2.getD i []).getD j none)) := by
  refine ⟨mapME_ok_length hok, ?_, ?_⟩
  · intro i hi
    have h1 := mapME_ok_getD ([] : List Cell) ([] : List Cell) hok i hi
    have h2 := mapME_ok_length h1
    rw [h2, List.length_zip, hwf i hi, Nat.min_self]
  · intro i j hi hj
    have h1 := mapME_ok_getD ([] : List Cell) ([] : List Cell) hok i hi
    exact zipmapME_getD g s.cols _ _ j h1 hj (by rw [hwf i hi]; exact hj)

theorem sheetMap_inv (g : String × Cell → Cell) (s : Sheet)
    (hwf : ∀ i, i < s.rows.length → (s.rows.getD i []).length = s.cols.length) :
    (s.rows.map (fun r => (s.cols.zip r).map g)).length = s.rows.length ∧
    (∀ i, i < s.rows.length →
      ((s.rows.map (fun r => (s.cols.zip r).map g)).getD i []).length = s.cols.length) ∧
    (∀ i j, i < s.rows.length → j < s.cols.length →
      ((s.rows.map (fun r => (s.cols.zip r).map g)).getD i []).getD j none
        = g (s.cols.getD j "", (s.rows.getD i []).getD j none)) := by
  refine ⟨List.length_map _ _, ?_, ?_⟩
  · intro i hi
    rw [map_getD _ [] _ _ _ hi, List.length_map, List.length_zip, hwf i hi, Nat.min_self]
  · intro i j hi hj
    rw [map_getD _ [] _ _ _ hi]
    exact zipmap_getD g none s.cols _ j hj (by rw [hwf i hi]; exact hj)

/-! ## Network loader: cast and default facts -/

theorem int_bool_disjoint : ∀ c ∈ int_column, c ∉ bool_column := by decide

theorem type_not_int : "type" ∉ int_column := by decide

theorem type_not_bool : "type" ∉ bool_column := by decide

theorem type_default_none : default_values.lookup "type" = none := by rfl

theorem coords_default_none : default_values.lookup "coords" = none := by rfl

theorem default_cast_stable : ∀ cd ∈ default_values,
    (cd.1 ∈ int_column → castIntCell (some cd.2) = Except.ok (some cd.2)) ∧
    (cd.1 ∈ bool_column → castBoolCell (some cd.2) = some cd.2) := by decide

theorem castIntCell_ok_shape {c c2 : Cell} (h : castIntCell c = .ok c2) :
    ∃ n : ℤ, c2 = some (.int n) := by
  cases c with
  | none => cases h
  | some v =>
    cases v with
    | int n => exact ⟨n, (Except.ok.inj h).symm⟩
    | num q => exact ⟨truncQ q, (Except.ok.inj h).symm⟩
    | bool b => exact ⟨if b then 1 else 0, (Except.ok.inj h).symm⟩
    | str t =>
      have h2 : (match parseIntString t with
          | some n => Except.ok (some (Value.int n))
          | none => Except.error "invalid literal for int") = Except.ok c2 := h
      cases hp : parseIntString t with
      | none => rw [hp] at h2; cases h2
      | some n =>
        rw [hp] at h2
        exact ⟨n, (Except.ok.inj h2).symm⟩
    | coords cs => cases h

theorem castBoolCell_shape (c : Cell) : ∃ b : Bool, castBoolCell c = some (.bool b) := by
  cases c with
  | none => exact ⟨true, rfl⟩
  | some v => cases v <;> exact ⟨_, rfl⟩

/-! ## Network loader: per-stage lemmas -/

theorem dropIdxColumn_wf (s : Sheet) (hwf : ∀ r ∈ s.rows, r.length = s.cols.length) :
    ∀ r ∈ (dropIdxColumn s).rows, r.length = (dropIdxColumn s).cols.length := by
  intro r hr
  obtain ⟨r0, hr0, rfl⟩ := List.mem_map.mp hr
  show (((s.cols.zip r0).filter (fun cr => decide (cr.1 ≠ "idx"))).map Prod.snd).length
    = (s.cols.filter (fun c => decide (c ≠ "idx"))).length
  rw [List.length_map]
  exact zip_filter_fst_length (fun c => decide (c ≠ "idx")) s.cols r0 (hwf r0 hr0)

theorem dropAllNaRows_wf (s : Sheet) (hwf : ∀ r ∈ s.rows, r.length = s.cols.length) :
    ∀ r ∈ (dropAllNaRows s).rows, r.length = (dropAllNaRows s).cols.length :=
  fun r hr => hwf r (List.mem_of_mem_filter hr)

theorem parseCoordsSheet_inv (s out : Sheet) (hok : parseCoordsSheet s = .ok out) :
    out.cols = s.cols ∧
      mapME (fun r => mapME (fun cr =>
        if cr.1 = "coords" then
          match cr.2 with
          | some (Value.str t) =>
            match parseCoords t with
            | some cs => Except.ok (some (Value.coords cs))
            | none => Except.error "malformed coords string"
          | _ => Except.error "coords cell is not a string"
        else Except.ok cr.2) (s.cols.zip r)) s.rows = .ok out.rows := by
  unfold parseCoordsSheet at hok
  split at hok
  · cases hok
  · cases hok
    exact ⟨rfl, by assumption⟩

theorem castIntSheet_inv (s out : Sheet) (hok : castIntSheet s = .ok out) :
    out.cols = s.cols ∧
      mapME (fun r => mapME (fun cr =>
        if cr.1 ∈ int_column then castIntCell cr.2 else .ok cr.2)
          (s.cols.zip r)) s.rows = .ok out.rows := by
  unfold castIntSheet at hok
  split at hok
  · cases hok
  · cases hok
    exact ⟨rfl, by assumption⟩

theorem typedSheet_post (eq_name : String) (filled typed : Sheet)
    (hok : typedSheet eq_name filled = .ok typed)
    (hwf : ∀ i, i < filled.rows.length →
      (filled.rows.getD i []).length = filled.cols.length) :
    typed.cols = filled.cols ∧ typed.rows.length = filled.rows.length ∧
    (∀ i, i < typed.rows.length → (typed.rows.getD i []).length = typed.cols.length) ∧
    (∀ i j, i < filled.rows.length → j < filled.cols.length →
      (∀ v, filled.cell i j = some v → filled.cols.getD j "" ≠ "coords" →
        typed.cell i j = some v) ∧
      (eq_name = "bus" → filled.cols.getD j "" = "type" → filled.cell i j = none →
        typed.cell i j = some (.str "b")) ∧
      (eq_name = "load" → filled.cols.getD j "" = "type" → filled.cell i j = none →
        typed.cell i j = some (.str "wye"))) := by
  unfold typedSheet at hok
  by_cases hb : eq_name = "bus"
  · rw [if_pos hb] at hok
    cases hok
    obtain ⟨hlen, hrow, hcell⟩ := sheetMap_inv (fun cr =>
      match cr.2 with
      | some v => some v
      | none => ([("type", Value.str "b")] : List (String × Value)).lookup cr.1)
      filled hwf
    refine ⟨rfl, hlen, ?_, ?_⟩
    · intro i hi
      have hi2 : i < filled.rows.length := by
        have h0 : (fillnaSheet [("type", Value.str "b")] filled).rows.length
            = filled.rows.length := hlen
        rw [← h0]
        exact hi
      exact hrow i hi2
    · intro i j hi hj
      have h3 : (fillnaSheet [("type", Value.str "b")] filled).cell i j
          = (match filled.cell i j with
             | some w => some w
             | none => ([("type", Value.str "b")] : List (String × Value)).lookup
                 (filled.cols.getD j "")) := hcell i j hi hj
      refine ⟨?_, ?_, ?_⟩
      · intro v hv _
        rw [hv] at h3
        exact h3
      · intro _ htype hnone
        rw [hnone, htype] at h3
        exact h3
      · intro hl
        rw [hb] at hl
        exact absurd hl (by decide)
  · rw [if_neg hb] at hok
    by_cases hl : eq_name = "load"
    · rw [if_pos hl] at hok
      cases hok
      obtain ⟨hlen, hrow, hcell⟩ := sheetMap_inv (fun cr =>
        match cr.2 with
        | some v => some v
        | none => ([("type", Value.str "wye")] : List (String × Value)).lookup cr.1)
        filled hwf
      refine ⟨rfl, hlen, ?_, ?_⟩
      · intro i hi
        have hi2 : i < filled.rows.length := by
          have h0 : (fillnaSheet [("type", Value.str "wye")] filled).rows.length
              = filled.rows.length := hlen
          rw [← h0]
          exact hi
        exact hrow i hi2
      · intro i j hi hj
        have h3 : (fillnaSheet [("type", Value.str "wye")] filled).cell i j
            = (match filled.cell i j with
               | some w => some w
               | none => ([("type", Value.str "wye")] : List (String × Value)).lookup
                   (filled.cols.getD j "")) := hcell i j hi hj
        refine ⟨?_, ?_, ?_⟩
        · intro v hv _
          rw [hv] at h3
          exact h3
        · intro hbb
          rw [hl] at hbb
          exact absurd hbb (by decide)
        · intro _ htype hnone
          rw [hnone, htype] at h3
          exact h3
    · rw [if_neg hl] at hok
      by_cases hg : eq_name = "line_geodata"
      · rw [if_pos hg] at hok
        obtain ⟨hcols, hrows⟩ := parseCoordsSheet_inv filled typed hok
        obtain ⟨hlen, hrow, hcell⟩ := sheetMapME_inv _ filled typed.rows hrows hwf
        refine ⟨hcols, hlen, ?_, ?_⟩
        · intro i hi
          rw [hlen] at hi
          rw [hcols]
          exact hrow i hi
        · intro i j hi hj
          refine ⟨?_, ?_, ?_⟩
          · intro v hv hcnot
            have h2 := hcell i j hi hj
            rw [show (filled.rows.getD i []).getD j none = filled.cell i j from rfl,
              hv, if_neg hcnot] at h2
            exact (Except.ok.inj h2).symm
          · intro hbb
            rw [hg] at hbb
            exact absurd hbb (by decide)
          · intro hll
            rw [hg] at hll
            exact absurd hll (by decide)
      · rw [if_neg hg] at hok
        cases hok
        refine ⟨rfl, rfl, hwf, ?_⟩
        intro i j hi hj
        refine ⟨fun v hv _ => hv, ?_, ?_⟩
        · intro hbb
          exact absurd hbb hb
        · intro hll
          exact absurd hll hl

theorem loadSheet_post (eq_name : String) (raw t : Sheet)
    (hwf : ∀ r ∈ raw.rows, r.length = raw.cols.length)
    (hok : loadSheet eq_name raw = .ok (some t)) :
    t.cols = (dropAllNaRows (dropIdxColumn raw)).cols ∧
    t.rows.length = (dropAllNaRows (dropIdxColumn raw)).rows.length ∧
    (∀ i j, i < t.rows.length → j < t.cols.length →
      (t.cols.getD j "" ∈ int_column → ∃ n : ℤ, t.cell i j = some (.int n)) ∧
      (t.cols.getD j "" ∈ bool_column → ∃ b : Bool, t.cell i j = some (.bool b)) ∧
      (∀ d, (dropAllNaRows (dropIdxColumn raw)).cell i j = none →
        default_values.lookup (t.cols.getD j "") = some d → t.cell i j = some d) ∧
      (eq_name = "bus" → (dropAllNaRows (dropIdxColumn raw)).cell i j = none →
        t.cols.getD j "" = "type" → t.cell i j = some (.str "b")) ∧
      (eq_name = "load" → (dropAllNaRows (dropIdxColumn raw)).cell i j = none →
        t.cols.getD j "" = "type" → t.cell i j = some (.str "wye"))) := by
  have hwfc : ∀ r ∈ (dropAllNaRows (dropIdxColumn raw)).rows,
      r.length = (dropAllNaRows (dropIdxColumn raw)).cols.length :=
    dropAllNaRows_wf _ (dropIdxColumn_wf raw hwf)
  simp only [loadSheet] at hok
  set cleaned := dropAllNaRows (dropIdxColumn raw) with hcl
  have hwfcD : ∀ i, i < cleaned.rows.length →
      (cleaned.rows.getD i []).length = cleaned.cols.length :=
    fun i hi => hwfc _ (getD_mem cleaned.rows i [] hi)
  by_cases hemp : cleaned.rows = []
  · rw [if_pos hemp] at hok
    simp at hok
  · rw [if_neg hemp] at hok
    cases ht : typedSheet eq_name (fillnaSheet default_values cleaned) with
    | error e => rw [ht] at hok; cases hok
    | ok typed =>
      rw [ht] at hok
      have hok2 : (match castIntSheet typed with
          | Except.error e => (Except.error e : Except String (Option Sheet))
          | Except.ok casted => Except.ok (some (castBoolSheet casted)))
          = Except.ok (some t) := hok
      cases hc : castIntSheet typed with
      | error e => rw [hc] at hok2; cases hok2
      | ok casted =>
        rw [hc] at hok2
        have hteq2 : castBoolSheet casted = t :=
          Option.some.inj (Except.ok.inj hok2)
        subst hteq2
        obtain ⟨hflen0, hfrow0, hfcell0⟩ := sheetMap_inv (fun cr =>
          match cr.2 with
          | some v => some v
          | none => default_values.lookup cr.1) cleaned hwfcD
        have hflen2 : (fillnaSheet default_values cleaned).rows.length
            = cleaned.rows.length := hflen0
        have hfcell2 : ∀ i j, i < cleaned.rows.length → j < cleaned.cols.length →
            (fillnaSheet default_values cleaned).cell i j
              = (match cleaned.cell i j with
                 | some v => some v
                 | none => default_values.lookup (cleaned.cols.getD j "")) := hfcell0
        have hwfF : ∀ i, i < (fillnaSheet default_values cleaned).rows.length →
            ((fillnaSheet default_values cleaned).rows.getD i []).length
              = (fillnaSheet default_values cleaned).cols.length := by
          intro i hi
          rw [hflen2] at hi
          exact hfrow0 i hi
        obtain ⟨htcols, htlen0, htwf, htcell⟩ :=
          typedSheet_post eq_name _ typed ht hwfF
        have htlen : typed.rows.length = cleaned.rows.length := by
          rw [htlen0]
          exact hflen2
        have hcolsTc : typed.cols = cleaned.cols := htcols
        obtain ⟨hccols, hcrows⟩ := castIntSheet_inv typed casted hc
        obtain ⟨hclen, hcwf0, hccell⟩ := sheetMapME_inv _ typed casted.rows hcrows htwf
        have hcolsCc : casted.cols = cleaned.cols := by rw [hccols]; exact hcolsTc
        have hclen2 : casted.rows.length = cleaned.rows.length := by
          rw [hclen]; exact htlen
        have hcwf : ∀ i, i < casted.rows.length →
            (casted.rows.getD i []).length = casted.cols.length := by
          intro i hi
          rw [hclen] at hi
          rw [show casted.cols = typed.cols from hccols]
          exact hcwf0 i hi
        obtain ⟨hblen, hbwf, hbcell⟩ := sheetMap_inv (fun cr =>
          if cr.1 ∈ bool_column then castBoolCell cr.2 else cr.2) casted hcwf
        have hfinlen : (castBoolSheet casted).rows.length = cleaned.rows.length := by
          have h2 : (castBoolSheet casted).rows.length = casted.rows.length := hblen
          rw [h2]
          exact hclen2
        have hfincols : (castBoolSheet casted).cols = cleaned.cols := by
          show casted.cols = cleaned.cols
          exact hcolsCc
        refine ⟨hfincols, hfinlen, ?_⟩
        intro i j hi hj
        rw [hfinlen] at hi
        rw [hfincols] at hj
        have hiT : i < typed.rows.length := by rw [htlen]; exact hi
        have hjT : j < typed.cols.length := by rw [hcolsTc]; exact hj
        have hiC : i < casted.rows.length := by rw [hclen2]; exact hi
        have hjC : j < casted.cols.length := by rw [hcolsCc]; exact hj
        have hcolj : (castBoolSheet casted).cols.getD j ""
            = cleaned.cols.getD j "" := by rw [hfincols]
        have hcoljC : casted.cols.getD j "" = cleaned.cols.getD j "" := by
          rw [hcolsCc]
        have hcoljT : typed.cols.getD j "" = cleaned.cols.getD j "" := by
          rw [hcolsTc]
        have hbc : (castBoolSheet casted).cell i j
            = (if casted.cols.getD j "" ∈ bool_column
               then castBoolCell (casted.cell i j) else casted.cell i j) :=
          hbcell i j hiC hjC
        have hicast : (if typed.cols.getD j "" ∈ int_column
            then castIntCell (typed.cell i j)
            else Except.ok (typed.cell i j)) = Except.ok (casted.cell i j) :=
          hccell i j hiT hjT
        refine ⟨?_, ?_, ?_, ?_, ?_⟩
        · -- integer columns hold integers
          intro hint
          rw [hcolj] at hint
          rw [if_pos (by rw [hcoljT]; exact hint)] at hicast
          obtain ⟨n, hn⟩ := castIntCell_ok_shape hicast
          refine ⟨n, ?_⟩
          rw [hbc, if_neg (by rw [hcoljC]; exact int_bool_disjoint _ hint), hn]
        · -- boolean columns hold booleans
          intro hbool
          rw [hcolj] at hbool
          obtain ⟨b, hb2⟩ := castBoolCell_shape (casted.cell i j)
          refine ⟨b, ?_⟩
          rw [hbc, if_pos (by rw [hcoljC]; exact hbool), hb2]
        · -- defaults survive
          intro d hnone hd
          rw [hcolj] at hd
          have hfd : (fillnaSheet default_values cleaned).cell i j = some d := by
            rw [hfcell2 i j hi hj, hnone, hd]
          have hnc : cleaned.cols.getD j "" ≠ "coords" := by
            intro hcc
            rw [hcc, coords_default_none] at hd
            cases hd
          have htd : typed.cell i j = some d :=
            (htcell i j (by rw [hflen2]; exact hi) hj).1 d hfd
              (by show (fillnaSheet default_values cleaned).cols.getD j "" ≠ "coords"
                  exact hnc)
          have hstab := default_cast_stable _ (mem_of_lookup_eq_some hd)
          have hcd : casted.cell i j = some d := by
            by_cases hci : cleaned.cols.getD j "" ∈ int_column
            · rw [if_pos (by rw [hcoljT]; exact hci), htd] at hicast
              rw [hstab.1 hci] at hicast
              exact (Except.ok.inj hicast).symm
            · rw [if_neg (by rw [hcoljT]; exact hci), htd] at hicast
              exact (Except.ok.inj hicast).symm
          by_cases hcb : cleaned.cols.getD j "" ∈ bool_column
          · rw [hbc, if_pos (by rw [hcoljC]; exact hcb), hcd]
            exact hstab.2 hcb
          · rw [hbc, if_neg (by rw [hcoljC]; exact hcb)]
            exact hcd
        · -- bus type default
          intro hbus hnone htype
          rw [hcolj] at htype
          have hfd : (fillnaSheet default_values cleaned).cell i j = none := by
            rw [hfcell2 i j hi hj, hnone, htype, type_default_none]
          have htd : typed.cell i j = some (.str "b") :=
            (htcell i j (by rw [hflen2]; exact hi) hj).2.1 hbus
              (by show (fillnaSheet default_values cleaned).cols.getD j "" = "type"
                  exact htype) hfd
          have hcd : casted.cell i j = some (.str "b") := by
            rw [if_neg (by rw [hcoljT, htype]; exact type_not_int), htd] at hicast
            exact (Except.ok.inj hicast).symm
          rw [hbc, if_neg (by rw [hcoljC, htype]; exact type_not_bool)]
          exact hcd
        · -- load type default
          intro hload hnone htype
          rw [hcolj] at htype
          have hfd : (fillnaSheet default_values cleaned).cell i j = none := by
            rw [hfcell2 i j hi hj, hnone, htype, type_default_none]
          have htd : typed.cell i j = some (.str "wye") :=
            (htcell i j (by rw [hflen2]; exact hi) hj).2.2 hload
              (by show (fillnaSheet default_values cleaned).cols.getD j "" = "type"
                  exact htype) hfd
          have hcd : casted.cell i j = some (.str "wye") := by
            rw [if_neg (by rw [hcoljT, htype]; exact type_not_int), htd] at hicast
            exact (Except.ok.inj hicast).symm
          rw [hbc, if_neg (by rw [hcoljC, htype]; exact type_not_bool)]
          exact hcd

/-- C4: Network Loader postcondition. Every table of the loaded network comes
from a source sheet; after loading, every cell of a column in the fixed
integer set holds a 64-bit integer and every cell of a column in the fixed
boolean set holds a boolean; every cell that is missing in the cleaned source
but whose column has an entry in the default table equals its default value;
and the bus and load classes fill a missing "type" with "b" and "wye". -/
theorem load_net_from_xlsx_types_and_defaults
    (sheets : List (String × Sheet)) (net : List (String × Sheet))
    (hwf : ∀ ns ∈ sheets, ∀ r ∈ ns.2.rows, r.length = ns.2.cols.length)
    (hok : load_net_from_xlsx sheets = .ok net) :
    ∀ nt ∈ net, ∃ raw, (nt.1, raw) ∈ sheets ∧
      loadSheet nt.1 raw = .ok (some nt.2) ∧
      nt.2.cols = (dropAllNaRows (dropIdxColumn raw)).cols ∧
      (∀ i j, i < nt.2.rows.length → j < nt.2.cols.length →
        (nt.2.cols.getD j "" ∈ int_column → ∃ n : ℤ, nt.2.cell i j = some (.int n)) ∧
        (nt.2.cols.getD j "" ∈ bool_column → ∃ b : Bool, nt.2.cell i j = some (.bool b)) ∧
        (∀ d, (dropAllNaRows (dropIdxColumn raw)).cell i j = none →
          default_values.lookup (nt.2.cols.getD j "") = some d →
          nt.2.cell i j = some d) ∧
        (nt.1 = "bus" → (dropAllNaRows (dropIdxColumn raw)).cell i j = none →
          nt.2.cols.getD j "" = "type" → nt.2.cell i j = some (.str "b")) ∧
        (nt.1 = "load" → (dropAllNaRows (dropIdxColumn raw)).cell i j = none →
          nt.2.cols.getD j "" = "type" → nt.2.cell i j = some (.str "wye"))) := by
  intro nt hnt
  unfold load_net_from_xlsx at hok
  cases hm : mapME (fun ns =>
      match loadSheet ns.1 ns.2 with
      | .error e => (.error e : Except String (String × Option Sheet))
      | .ok t0 => .ok (ns.1, t0)) sheets with
  | error e => rw [hm] at hok; cases hok
  | ok tables =>
    rw [hm] at hok
    have hnet : net = tables.filterMap (fun nt2 => nt2.2.map (fun t0 => (nt2.1, t0))) :=
      (Except.ok.inj hok).symm
    rw [hnet] at hnt
    obtain ⟨nt2, hnt2, hmap⟩ := List.mem_filterMap.mp hnt
    cases hsome : nt2.2 with
    | none => rw [hsome] at hmap; cases hmap
    | some t0 =>
      rw [hsome] at hmap
      have hpair : (nt2.1, t0) = nt := Option.some.inj hmap
      obtain ⟨ns, hns, hF⟩ := mapME_ok_mem hm nt2 hnt2
      cases hls : loadSheet ns.1 ns.2 with
      | error e => rw [hls] at hF; cases hF
      | ok t1 =>
        rw [hls] at hF
        have h2 : (ns.1, t1) = nt2 := Except.ok.inj hF
        have hname : ns.1 = nt.1 :=
          (congrArg Prod.fst h2).trans (congrArg Prod.fst hpair)
        have htbl : t0 = nt.2 := congrArg Prod.snd hpair
        have ht1 : t1 = some t0 := (congrArg Prod.snd h2).trans hsome
        have hls2 : loadSheet nt.1 ns.2 = .ok (some nt.2) := by
          rw [← hname, hls, ht1, htbl]
        obtain ⟨hcols, _, hcell⟩ := loadSheet_post nt.1 ns.2 nt.2 (hwf ns hns) hls2
        refine ⟨ns.2, ?_, hls2, hcols, hcell⟩
        rw [← hname]
        exact hns

/-- C4 witness: a one-row bus sheet with a missing type, a missing in_service
and a float bus number loads to "b", True and int64 1. -/
theorem load_net_from_xlsx_types_and_defaults_witness :
    (∀ ns ∈ [("bus", exRawBus)], ∀ r ∈ ns.2.rows, r.length = ns.2.cols.length) ∧
    load_net_from_xlsx [("bus", exRawBus)] = .ok [("bus", exLoadedBus)] ∧
    (∀ nt ∈ [("bus", exLoadedBus)], ∃ raw, (nt.1, raw) ∈ [("bus", exRawBus)] ∧
      loadSheet nt.1 raw = .ok (some nt.2) ∧
      nt.2.cols = (dropAllNaRows (dropIdxColumn raw)).cols ∧
      (∀ i j, i < nt.2.rows.length → j < nt.2.cols.length →
        (nt.2.cols.getD j "" ∈ int_column → ∃ n : ℤ, nt.2.cell i j = some (.int n)) ∧
        (nt.2.cols.getD j "" ∈ bool_column → ∃ b : Bool, nt.2.cell i j = some (.bool b)) ∧
        (∀ d, (dropAllNaRows (dropIdxColumn raw)).cell i j = none →
          default_values.lookup (nt.2.cols.getD j "") = some d →
          nt.2.cell i j = some d) ∧
        (nt.1 = "bus" → (dropAllNaRows (dropIdxColumn raw)).cell i j = none →
          nt.2.cols.getD j "" = "type" → nt.2.cell i j = some (.str "b")) ∧
        (nt.1 = "load" → (dropAllNaRows (dropIdxColumn raw)).cell i j = none →
          nt.2.cols.getD j "" = "type" → nt.2.cell i j = some (.str "wye")))) :=
  ⟨by decide, by decide,
    load_net_from_xlsx_types_and_defaults [("bus", exRawBus)] [("bus", exLoadedBus)]
      (by decide) (by decide)⟩

/-! ## Profile loader: lemmas -/

theorem foldl_min_acc [LinearOrder α] (l : List α) : ∀ p d : α,
    min p (l.foldl min d) = l.foldl min (min p d) := by
  induction l with
  | nil => intro p d; rfl
  | cons x xs ih =>
    intro p d
    simp only [List.foldl_cons]
    rw [ih, ← min_assoc]

theorem foldl_max_acc [LinearOrder α] (l : List α) : ∀ p d : α,
    max p (l.foldl max d) = l.foldl max (max p d) := by
  induction l with
  | nil => intro p d; rfl
  | cons x xs ih =>
    intro p d
    simp only [List.foldl_cons]
    rw [ih, ← max_assoc]

theorem commonPeriodOf_eq_foldl (idxs : List (List ℕ)) :
    commonPeriodOf idxs = ((idxs.map gapsOf).flatten).foldl min (microsPerDay : ℤ) := by
  suffices h : ∀ p : ℤ, idxs.foldl (fun p idx => match diffMin idx with
      | none => p
      | some d => min p d) p = ((idxs.map gapsOf).flatten).foldl min p from h _
  induction idxs with
  | nil => intro p; rfl
  | cons idx rest ih =>
    intro p
    simp only [List.foldl_cons, List.map_cons, List.flatten_cons, List.foldl_append]
    have hstep : (match diffMin idx with
        | none => p
        | some d => min p d) = (gapsOf idx).foldl min p := by
      have hdm : diffMin idx = (match gapsOf idx with
          | [] => none
          | d :: ds => some (ds.foldl min d)) := rfl
      cases hg : gapsOf idx with
      | nil =>
        rw [hdm, hg]
        rfl
      | cons d ds =>
        rw [hdm, hg]
        show min p (ds.foldl min d) = (d :: ds).foldl min p
        rw [foldl_min_acc, List.foldl_cons]
    rw [hstep, ih]

theorem gapsOf_bounds (idx : List ℕ)
    (hmono : ∀ ab ∈ idx.zip idx.tail, ab.1 < ab.2)
    (hday : ∀ tv ∈ idx, tv < microsPerDay) :
    ∀ g ∈ gapsOf idx, 0 < g ∧ g < (microsPerDay : ℤ) := by
  intro g hg
  obtain ⟨ab, hab, habe⟩ := List.mem_map.mp hg
  have hlt := hmono ab hab
  obtain ⟨_, hb⟩ := List.of_mem_zip hab
  have hbday := hday ab.2 ((List.tail_sublist idx).subset hb)
  have h1 : (ab.1 : ℤ) < (ab.2 : ℤ) := by exact_mod_cast hlt
  have h2 : (ab.2 : ℤ) < (microsPerDay : ℤ) := by exact_mod_cast hbday
  rw [← habe]
  constructor
  · omega
  · have h3 : (0 : ℤ) ≤ (ab.1 : ℤ) := Int.ofNat_nonneg _
    omega

theorem diffMin_none_of_short (s : List ℕ) (hs : s.length ≤ 1) : diffMin s = none := by
  cases s with
  | nil => rfl
  | cons a rest =>
    cases rest with
    | nil => rfl
    | cons b r2 => simp at hs

theorem commonPeriodOf_step (p : ℤ) (s : List ℕ) (hs : diffMin s = none)
    (l : List (List ℕ)) :
    (s :: l).foldl (fun p idx => match diffMin idx with
      | none => p
      | some d => min p d) p
      = l.foldl (fun p idx => match diffMin idx with
      | none => p
      | some d => min p d) p := by
  rw [List.foldl_cons]
  congr 1
  show (match diffMin s with
    | none => p
    | some d => min p d) = p
  rw [hs]

/-- C6: Single-sample robustness: a sheet with at most one sample contributes
no constraint to the minimum-period fold of load_power_profile_form_xlsx —
removing it leaves the common period unchanged — and when every sheet is
single-sample the period stays at the one-day initial bound. -/
theorem commonPeriodOf_single_sample (xs ys : List (List ℕ)) (s : List ℕ)
    (hs : s.length ≤ 1) (idxs : List (List ℕ))
    (hall : ∀ idx ∈ idxs, idx.length ≤ 1) :
    commonPeriodOf (xs ++ s :: ys) = commonPeriodOf (xs ++ ys) ∧
    commonPeriodOf idxs = microsPerDay := by
  constructor
  · unfold commonPeriodOf
    rw [List.foldl_append, List.foldl_append]
    exact commonPeriodOf_step _ s (diffMin_none_of_short s hs) ys
  · have hgen : ∀ (l : List (List ℕ)) (p : ℤ), (∀ idx ∈ l, diffMin idx = none) →
        l.foldl (fun p idx => match diffMin idx with
          | none => p
          | some d => min p d) p = p := by
      intro l
      induction l with
      | nil => intro p _; rfl
      | cons idx rest ih =>
        intro p hl
        simp only [List.foldl_cons]
        have h1 : (match diffMin idx with
            | none => p
            | some d => min p d) = p := by
          rw [hl idx (List.mem_cons_self _ _)]
        rw [h1]
        exact ih p (fun i hi => hl i (List.mem_cons_of_mem _ hi))
    exact hgen idxs _ (fun idx hi => diffMin_none_of_short idx (hall idx hi))

/-- C6 witness: inserting a one-sample sheet does not change the period of a
two-sample sheet, and a lone one-sample sheet leaves the one-day bound. -/
theorem commonPeriodOf_single_sample_witness :
    commonPeriodOf [[0, 60000000], [100], [0, 120000000]]
        = commonPeriodOf [[0, 60000000], [0, 120000000]] ∧
    commonPeriodOf [[5]] = microsPerDay :=
  commonPeriodOf_single_sample [[0, 60000000]] [[0, 120000000]] [100]
    (by decide) [[5]] (by decide)

/-- C5 counterexample: for a sheet whose first sample lies at 23:59:59.5, the
common start time is the 23:59:59 fold seed and the returned index begins
there — not at the earliest first-sample time across the sheets, which is
23:59:59.5. -/
theorem load_power_profile_start_seed_counterexample :
    commonStartOf ((cleanedSheets [("load", exSheet5)]).map
        (fun ns => ns.2.index.headD 0)) = 86399000000 ∧
    specStart ((cleanedSheets [("load", exSheet5)]).map
        (fun ns => ns.2.index.headD 0)) = some 86399500000 ∧
    (load_power_profile_form_xlsx [("load", exSheet5)]).toOption.map
        (fun res => res.map (fun ns => (ns.1, ns.2.map (fun vf => (vf.1, vf.2.index)))))
      = some [("load", [("p_mw",
          [86399000000, 86399100000, 86399200000, 86399300000, 86399400000,
           86399500000, 86399600000])])] := by
  decide

/-- C5 (amended): for non-empty profile sheets with strictly increasing
one-day time indexes, load_power_profile_form_xlsx computes the common
period as the minimum inter-sample gap observed across the kept sheets (when
any sheet has two samples), the common start time as the minimum of the
23:59:59 seed and the earliest first-sample time, the common end time as the
latest last-sample time, and the reference grid from start to end at that
period becomes the index of every returned table. -/
theorem load_power_profile_grid_construction
    (sheets : List (String × RawProfileSheet))
    (res : List (String × List (String × ProfileFrame)))
    (hok : load_power_profile_form_xlsx sheets = .ok res)
    (hmono : ∀ ns ∈ cleanedSheets sheets,
      ∀ ab ∈ ns.2.index.zip ns.2.index.tail, ab.1 < ab.2)
    (hday : ∀ ns ∈ cleanedSheets sheets, ∀ tv ∈ ns.2.index, tv < microsPerDay) :
    (∀ m, specMinGap ((cleanedSheets sheets).map (fun ns => ns.2.index)) = some m →
      commonPeriodOf ((cleanedSheets sheets).map (fun ns => ns.2.index)) = m) ∧
    (∀ m, specStart ((cleanedSheets sheets).map (fun ns => ns.2.index.headD 0))
        = some m →
      commonStartOf ((cleanedSheets sheets).map (fun ns => ns.2.index.headD 0))
        = min startSeed m) ∧
    (∀ m, specEnd ((cleanedSheets sheets).map (fun ns => ns.2.index.getLastD 0))
        = some m →
      commonEndOf ((cleanedSheets sheets).map (fun ns => ns.2.index.getLastD 0)) = m) ∧
    (∀ entry ∈ res, ∀ vf ∈ entry.2, (vf : String × ProfileFrame).2.index
      = dateRange
          (commonStartOf ((cleanedSheets sheets).map (fun ns => ns.2.index.headD 0)))
          (commonEndOf ((cleanedSheets sheets).map (fun ns => ns.2.index.getLastD 0)))
          (commonPeriodOf ((cleanedSheets sheets).map (fun ns => ns.2.index)))) := by
  refine ⟨?_, ?_, ?_, ?_⟩
  · intro m hm
    have hspec : specMinGap ((cleanedSheets sheets).map (fun ns => ns.2.index))
        = (match (((cleanedSheets sheets).map (fun ns => ns.2.index)).map
              gapsOf).flatten with
           | [] => none
           | d :: ds => some (ds.foldl min d)) := rfl
    rw [hspec] at hm
    cases hfl : (((cleanedSheets sheets).map (fun ns => ns.2.index)).map
        gapsOf).flatten with
    | nil => rw [hfl] at hm; cases hm
    | cons d ds =>
      rw [hfl] at hm
      have hm2 : ds.foldl min d = m := Option.some.inj hm
      have hd : d < (microsPerDay : ℤ) := by
        have hdmem : d ∈ (((cleanedSheets sheets).map (fun ns => ns.2.index)).map
            gapsOf).flatten := by
          rw [hfl]
          exact List.mem_cons_self _ _
        obtain ⟨gl, hgl, hdgl⟩ := List.mem_flatten.mp hdmem
        obtain ⟨idx0, hidx0, hglx⟩ := List.mem_map.mp hgl
        obtain ⟨ns, hns, hnsx⟩ := List.mem_map.mp hidx0
        rw [← hglx, ← hnsx] at hdgl
        exact (gapsOf_bounds ns.2.index (hmono ns hns) (hday ns hns) d hdgl).2
      rw [commonPeriodOf_eq_foldl, hfl]
      rw [show ((d :: ds).foldl min (microsPerDay : ℤ))
          = ds.foldl min (min (microsPerDay : ℤ) d) from rfl]
      rw [min_eq_right hd.le]
      exact hm2
  · intro m hm
    cases hfst : (cleanedSheets sheets).map (fun ns => ns.2.index.headD 0) with
    | nil => rw [hfst] at hm; cases hm
    | cons f fs =>
      rw [hfst] at hm
      have hm2 : fs.foldl min f = m := Option.some.inj hm
      rw [show commonStartOf (f :: fs) = fs.foldl min (min startSeed f) from rfl]
      rw [← foldl_min_acc, hm2]
  · intro m hm
    cases hlst : (cleanedSheets sheets).map (fun ns => ns.2.index.getLastD 0) with
    | nil => rw [hlst] at hm; cases hm
    | cons l ls =>
      rw [hlst] at hm
      have hm2 : ls.foldl max l = m := Option.some.inj hm
      rw [show commonEndOf (l :: ls) = ls.foldl max (max 0 l) from rfl]
      rw [Nat.zero_max]
      exact hm2
  · intro entry hentry vf hvf
    simp only [load_power_profile_form_xlsx] at hok
    obtain ⟨ns, hns, hF⟩ := mapME_ok_mem hok entry hentry
    cases hal : alignSheet (dateRange
        (commonStartOf ((cleanedSheets sheets).map (fun ns => ns.2.index.headD 0)))
        (commonEndOf ((cleanedSheets sheets).map (fun ns => ns.2.index.getLastD 0)))
        (commonPeriodOf ((cleanedSheets sheets).map (fun ns => ns.2.index)))) ns.2 with
    | error e => rw [hal] at hF; cases hF
    | ok rows =>
      rw [hal] at hF
      have hent := Except.ok.inj hF
      have hvf2 : vf ∈ ((ns.1,
          (if "P [MW]" ∈ ns.2.cols.map Prod.snd
           then [("p_mw", xsPower ns.2.cols rows (dateRange
             (commonStartOf ((cleanedSheets sheets).map (fun ns => ns.2.index.headD 0)))
             (commonEndOf ((cleanedSheets sheets).map (fun ns => ns.2.index.getLastD 0)))
             (commonPeriodOf ((cleanedSheets sheets).map (fun ns => ns.2.index))))
             "P [MW]")] else [])
          ++ (if "Q [MVAR]" ∈ ns.2.cols.map Prod.snd
           then [("q_mvar", xsPower ns.2.cols rows (dateRange
             (commonStartOf ((cleanedSheets sheets).map (fun ns => ns.2.index.headD 0)))
             (commonEndOf ((cleanedSheets sheets).map (fun ns => ns.2.index.getLastD 0)))
             (commonPeriodOf ((cleanedSheets sheets).map (fun ns => ns.2.index))))
             "Q [MVAR]")] else [])) :
            String × List (String × ProfileFrame)).2 := by
        rw [hent]
        exact hvf
      rcases List.mem_append.mp hvf2 with h1 | h1
      · by_cases hP : "P [MW]" ∈ ns.2.cols.map Prod.snd
        · rw [if_pos hP] at h1
          rw [List.mem_singleton.mp h1]
          rfl
        · rw [if_neg hP] at h1
          simp at h1
      · by_cases hQ : "Q [MVAR]" ∈ ns.2.cols.map Prod.snd
        · rw [if_pos hQ] at h1
          rw [List.mem_singleton.mp h1]
          rfl
        · rw [if_neg hQ] at h1
          simp at h1

/-- C5 witness: on the concrete sheet the loader returns exRes5 and the
common start time equals min(23:59:59, earliest first sample). -/
theorem load_power_profile_grid_construction_witness :
    commonStartOf ((cleanedSheets [("load", exSheet5)]).map
        (fun ns => ns.2.index.headD 0)) = min startSeed 86399500000 :=
  (load_power_profile_grid_construction [("load", exSheet5)] exRes5
    (by decide) (by decide) (by decide)).2.1 86399500000 (by decide)

/-- C8: for every call to create_output_writer, the set of result selectors
registered with the output writer is the union of the caller-supplied extras
(a single string or a list, or none) with the mandatory selector
"res_trafo.loading_percent", which is always included; and the default
result selection (no extras supplied) comprises bus voltage magnitude
(res_bus.vm_pu), line loading percent (res_line.loading_percent), and
transformer loading percent (res_trafo.loading_percent). -/
theorem create_output_writer_selectors (a : AddResults) :
    (create_output_writer a).toFinset =
      (outputWriterDefaults.toFinset ∪ (extrasOf a).toFinset) ∪
        {"res_trafo.loading_percent"} ∧
    create_output_writer AddResults.nothing =
      ["res_bus.vm_pu", "res_line.loading_percent",
        "res_trafo.loading_percent"] := by
  constructor
  · cases a with
    | nothing =>
      ext x
      simp [create_output_writer, resultsOf, extrasOf, outputWriterDefaults]
    | single s =>
      ext x
      simp [create_output_writer, resultsOf, extrasOf, outputWriterDefaults]
    | multiple l =>
      ext x
      simp [create_output_writer, resultsOf, extrasOf, outputWriterDefaults]
  · rfl

/-- C9: for every run of run_time_simulation with a (non-empty) output name
given, a failure of the persistence block is caught: the returned result
tables are identical to those of a run with no persistence requested, the
failure is logged as exactly one entry carrying the operation name
run_time_simulation and the target file path folder/name.xlsx, and a
successful persistence emits no log at all (nothing is ever re-raised: the
function is total and always returns the in-memory results). -/
theorem run_time_simulation_persistence_atomic (net : Net)
    (output : List (String × SimTable)) (fn folder : String) (persistOk : Bool)
    (hfn : fn ≠ "") :
    (run_time_simulation net output (some fn) folder persistOk).1 =
      (run_time_simulation net output none folder true).1 ∧
    (persistOk = false →
      (run_time_simulation net output (some fn) folder persistOk).2 =
        [LogEntry.persistError "run_time_simulation"
          (outputFilePath folder fn)]) ∧
    (persistOk = true →
      (run_time_simulation net output (some fn) folder persistOk).2 = []) := by
  refine ⟨?_, ?_, ?_⟩
  · cases persistOk <;> simp [run_time_simulation, hfn]
  · intro hp
    subst hp
    simp [run_time_simulation, hfn]
  · intro hp
    subst hp
    simp [run_time_simulation, hfn]

/-- Witness for C9 at a concrete network, output dict, file name and failing
persistence oracle. -/
theorem run_time_simulation_persistence_atomic_witness :
    ("out" : String) ≠ "" ∧
    ((run_time_simulation exNet9 exOutput9 (some "out") "output" false).1 =
      (run_time_simulation exNet9 exOutput9 none "output" true).1 ∧
    (false = false →
      (run_time_simulation exNet9 exOutput9 (some "out") "output" false).2 =
        [LogEntry.persistError "run_time_simulation"
          (outputFilePath "output" "out")]) ∧
    (false = true →
      (run_time_simulation exNet9 exOutput9 (some "out") "output" false).2 =
        [])) :=
  ⟨by decide,
    run_time_simulation_persistence_atomic exNet9 exOutput9 "out" "output"
      false (by decide)⟩

end PPUI
